import Mathlib

/-!
Verification of the wasm-bindgen descriptor codec and WebIDL binding
synthesis pass (`crates/cli-support/src/descriptor.rs` and
`crates/cli-support/src/webidl.rs`) against its natural-language
specification.

The Rust code is shallowly embedded: 32-bit opcodes become `Nat`, fallible
or panicking code returns `Option` / `PResult`, `HashMap`s become
association lists, and the stateful `Context` pass becomes explicit state
passing over a `Ctx` record.
-/

set_option maxHeartbeats 1000000

/-! ## Descriptor data model (`descriptor.rs`)

The tagged `Descriptor` union, with `Function` and `Closure` from the
source. `Function.arguments` nests `List Descriptor`, so the three types
form one mutual/nested inductive family.
-/

mutual

inductive Descriptor where
  | i8
  | u8
  | clampedU8
  | i16
  | u16
  | i32
  | u32
  | i64
  | u64
  | f32
  | f64
  | boolean
  | function (f : Func)
  | closure (c : Closure)
  | ref (d : Descriptor)
  | refMut (d : Descriptor)
  | slice (d : Descriptor)
  | vector (d : Descriptor)
  | string
  | anyref
  | enum (hole : Nat)
  | rustStruct (name : String)
  | char
  | option (d : Descriptor)
  | unit

inductive Func where
  | mk (arguments : List Descriptor) (shim_idx : Nat) (ret : Descriptor)

inductive Closure where
  | mk (shim_idx : Nat) (dtor_idx : Nat) (function : Func) (mutable : Bool)

end

def Func.arguments : Func → List Descriptor
  | .mk a _ _ => a

def Func.shim_idx : Func → Nat
  | .mk _ s _ => s

def Func.ret : Func → Descriptor
  | .mk _ _ r => r

def Closure.function : Closure → Func
  | .mk _ _ f _ => f

/-- `VectorKind`: the closed classification of contiguous-sequence
descriptors from `descriptor.rs`. -/
inductive VectorKind where
  | i8
  | u8
  | clampedU8
  | i16
  | u16
  | i32
  | u32
  | i64
  | u64
  | f32
  | f64
  | string
  | anyref

/-- `Descriptor::is_abi_as_u32`: narrow integers widened to 32 bits at the
boundary. -/
def Descriptor.is_abi_as_u32 : Descriptor → Bool
  | .i8 | .u8 | .i16 | .u16 => true
  | _ => false

/-- `Descriptor::get_64`: `Some(true)` for `I64`, `Some(false)` for `U64`,
`None` otherwise. -/
def Descriptor.get_64 : Descriptor → Option Bool
  | .i64 => some true
  | .u64 => some false
  | _ => none

/-- `Descriptor::is_anyref`. -/
def Descriptor.is_anyref : Descriptor → Bool
  | .anyref => true
  | _ => false

/-- The inner `match *inner { ... }` of `Descriptor::vector_kind`: element
classification of the unwrapped contiguous-sequence element type. -/
def Descriptor.vector_elem_kind : Descriptor → Option VectorKind
  | .i8 => some .i8
  | .i16 => some .i16
  | .i32 => some .i32
  | .i64 => some .i64
  | .u8 => some .u8
  | .clampedU8 => some .clampedU8
  | .u16 => some .u16
  | .u32 => some .u32
  | .u64 => some .u64
  | .f32 => some .f32
  | .f64 => some .f64
  | .anyref => some .anyref
  | _ => none

/-- `Descriptor::vector_kind`: classify `String`, `Vector`, `Slice`,
`Ref(Slice)`, `Ref(String)` and `RefMut(Slice)` descriptors by element
type. -/
def Descriptor.vector_kind : Descriptor → Option VectorKind
  | .string => some .string
  | .vector d => d.vector_elem_kind
  | .slice d => d.vector_elem_kind
  | .ref d =>
    match d with
    | .slice e => e.vector_elem_kind
    | .string => some .string
    | _ => none
  | .refMut d =>
    match d with
    | .slice e => e.vector_elem_kind
    | _ => none
  | _ => none

/-- `Descriptor::rust_struct`: opaque-struct name extraction, through at
most one level of reference. -/
def Descriptor.rust_struct : Descriptor → Option String
  | .ref d | .refMut d =>
    match d with
    | .rustStruct s => some s
    | _ => none
  | .rustStruct s => some s
  | _ => none

/-- `Descriptor::stack_closure`: a `Function` descriptor hidden behind a
`Ref` or `RefMut`, paired with the mutability flag. -/
def Descriptor.stack_closure : Descriptor → Option (Func × Bool)
  | .ref d =>
    match d with
    | .function f => some (f, false)
    | _ => none
  | .refMut d =>
    match d with
    | .function f => some (f, true)
    | _ => none
  | _ => none

/-- `Descriptor::abi_returned_through_pointer`: vector kinds and 64-bit
integers are returned through a pointer; for `Option(inner)` the listed
inner types (`Anyref`, `RustStruct`, `Enum`, `Char`, `Boolean`, `I8`, `U8`,
`I16`, `U16`) are not, everything else is. -/
def Descriptor.abi_returned_through_pointer (d : Descriptor) : Bool :=
  if d.vector_kind.isSome then true
  else if d.get_64.isSome then true
  else
    match d with
    | .option inner =>
      match inner with
      | .anyref | .rustStruct _ | .enum _ | .char | .boolean
      | .i8 | .u8 | .i16 | .u16 => false
      | _ => true
    | _ => false

/-- The common tail of `Descriptor::abi_arg_count` (after the `Option`
special cases): 2 for stack closures and pointer-returned values, else 1. -/
def Descriptor.abi_arg_count_rest (d : Descriptor) : Nat :=
  if d.stack_closure.isSome then 2
  else if d.abi_returned_through_pointer then 2
  else 1

/-- `Descriptor::abi_arg_count`. -/
def Descriptor.abi_arg_count (d : Descriptor) : Nat :=
  match d with
  | .option inner =>
    if inner.get_64.isSome then 4
    else
      match inner with
      | .ref .anyref => 1
      | _ => d.abi_arg_count_rest
  | _ => d.abi_arg_count_rest

/-! ## C3/C4/C6: claim-side definitions

These definitions follow the wording of the specification (not the
source); the theorems below compare them with the source-derived
functions. -/

/-- Claim side of C3 (spec wording): returned through pointer iff a vector
kind, a 64-bit integer, or optional-of-T with T outside
anyref/struct/enum/char/boolean/narrow-integer, where the narrow integers
include the clamped 8-bit unsigned variant. -/
def c3_claimed_rtp (d : Descriptor) : Bool :=
  d.vector_kind.isSome || d.get_64.isSome ||
    (match d with
     | .option inner =>
       match inner with
       | .anyref | .rustStruct _ | .enum _ | .char | .boolean
       | .i8 | .u8 | .clampedU8 | .i16 | .u16 => false
       | _ => true
     | _ => false)

/-- Amended side of C3: identical to `c3_claimed_rtp` except that the
clamped 8-bit unsigned variant is *not* among the excluded optional inner
types (so `Option(ClampedU8)` *is* returned through a pointer). -/
def c3_amended_rtp (d : Descriptor) : Bool :=
  d.vector_kind.isSome || d.get_64.isSome ||
    (match d with
     | .option inner =>
       match inner with
       | .anyref | .rustStruct _ | .enum _ | .char | .boolean
       | .i8 | .u8 | .i16 | .u16 => false
       | _ => true
     | _ => false)

/-- C3 counterexample: for `Option(ClampedU8)` the code returns the value
through a pointer, while the claim's exclusion list (which includes the
clamped 8-bit variant among the narrow integers) says it must not be. -/
theorem c3_counterexample :
    (Descriptor.option .clampedU8).abi_returned_through_pointer = true ∧
    c3_claimed_rtp (Descriptor.option .clampedU8) = false :=
  ⟨rfl, rfl⟩

/-- C3 (amended): `abi_returned_through_pointer` is true exactly for
vector kinds, 64-bit integers, and optional-of-T where T is not
anyref/struct/enum/char/boolean/plain-narrow-integer; the clamped 8-bit
variant is *not* excluded, and in particular a plain 64-bit integer is
returned through a pointer while a plain 32-bit float is not. -/
theorem c3_rtp_characterization :
    (∀ d : Descriptor, d.abi_returned_through_pointer = c3_amended_rtp d) ∧
    Descriptor.i64.abi_returned_through_pointer = true ∧
    Descriptor.f32.abi_returned_through_pointer = false := by
  refine ⟨fun d => ?_, rfl, rfl⟩
  cases d <;>
    first
    | rfl
    | (rename_i inner
       cases hv : inner.vector_elem_kind <;>
         simp [Descriptor.abi_returned_through_pointer, c3_amended_rtp,
           Descriptor.vector_kind, Descriptor.get_64, hv])

/-- Helper for C4: the claim's "optional 64-bit integer" shape. -/
def c4_is_option_64 : Descriptor → Bool
  | .option .i64 | .option .u64 => true
  | _ => false

/-- Helper for C4: the claim's "optional reference-to-anyref" shape. -/
def c4_is_option_ref_anyref : Descriptor → Bool
  | .option (.ref .anyref) => true
  | _ => false

/-- Claim side of C4 (spec wording, reading the cases in priority order):
4 for an optional 64-bit integer, 1 for an optional reference-to-anyref,
2 for a stack closure or a value returned through a pointer, 1 otherwise. -/
def c4_claimed_arg_count (d : Descriptor) : Nat :=
  if c4_is_option_64 d then 4
  else if c4_is_option_ref_anyref d then 1
  else if d.stack_closure.isSome || d.abi_returned_through_pointer then 2
  else 1

/-- C4: `abi_arg_count` agrees with the claim's case analysis for every
descriptor, and in particular a plain 64-bit integer occupies 2 ABI
argument slots while a plain 32-bit float occupies 1. -/
theorem c4_abi_arg_count_characterization :
    (∀ d : Descriptor, d.abi_arg_count = c4_claimed_arg_count d) ∧
    Descriptor.i64.abi_arg_count = 2 ∧
    Descriptor.f32.abi_arg_count = 1 := by
  refine ⟨fun d => ?_, rfl, rfl⟩
  cases d <;>
    first
    | rfl
    | (rename_i inner
       cases inner <;>
         first
         | rfl
         | (rename_i inner2
            cases inner2 <;> rfl))

/-- Claim side of C6 (spec wording): a vector classification exists only
for a String, a Vector or Slice of a classifiable element, or an immutable
or mutable reference to such a Slice. -/
def c6_claimed_shape (d : Descriptor) : Bool :=
  match d with
  | .string => true
  | .vector e => e.vector_elem_kind.isSome
  | .slice e => e.vector_elem_kind.isSome
  | .ref (.slice e) => e.vector_elem_kind.isSome
  | .refMut (.slice e) => e.vector_elem_kind.isSome
  | _ => false

/-- Amended side of C6: the shapes of `c6_claimed_shape` plus an immutable
reference to a String, which the code also classifies. -/
def c6_amended_shape (d : Descriptor) : Bool :=
  match d with
  | .string => true
  | .ref .string => true
  | .vector e => e.vector_elem_kind.isSome
  | .slice e => e.vector_elem_kind.isSome
  | .ref (.slice e) => e.vector_elem_kind.isSome
  | .refMut (.slice e) => e.vector_elem_kind.isSome
  | _ => false

/-- C6 counterexample: an immutable reference to a String receives a
vector classification from the code, but is not among the shapes the
claim allows. -/
theorem c6_counterexample :
    (Descriptor.ref .string).vector_kind = some VectorKind.string ∧
    c6_claimed_shape (Descriptor.ref .string) = false :=
  ⟨rfl, rfl⟩

/-- C6 (amended): `vector_kind` returns a classification exactly for
Strings, immutable references to Strings, Vectors and Slices of
classifiable elements, and one-level immutable/mutable references to such
Slices. -/
theorem c6_vector_kind_characterization :
    ∀ d : Descriptor, d.vector_kind.isSome = c6_amended_shape d := by
  intro d
  cases d <;>
    first
    | rfl
    | (rename_i inner
       cases inner <;> rfl)

/-! ## Descriptor opcode decoder (`descriptor.rs`)

Opcode values follow the `tys!` table: `I8 = 0`, `U8 = 1`, `I16 = 2`,
`U16 = 3`, `I32 = 4`, `U32 = 5`, `I64 = 6`, `U64 = 7`, `F32 = 8`,
`F64 = 9`, `BOOLEAN = 10`, `FUNCTION = 11`, `CLOSURE = 12`, `STRING = 13`,
`REF = 14`, `REFMUT = 15`, `SLICE = 16`, `VECTOR = 17`, `ANYREF = 18`,
`ENUM = 19`, `RUST_STRUCT = 20`, `CHAR = 21`, `OPTIONAL = 22`,
`UNIT = 23`, `CLAMPED = 24`.

The Rust decoder panics on a truncated stream, an unknown opcode, or
leftover opcodes; the embedding returns `Option`. Rust's unbounded
recursion becomes fuel-indexed recursion: the fuel only decreases when
descending into a nested descriptor, and every descriptor node consumes at
least one opcode, so `length + 1` fuel is always sufficient.
-/

inductive Opcode where
  | i8 | u8 | i16 | u16 | i32 | u32 | i64 | u64 | f32 | f64
  | boolean | function | closure | string | ref | refMut | slice | vector
  | anyref | enum | rustStruct | char | optional | unit | clamped
  | unknown

def toOpcode (n : Nat) : Opcode :=
  if n = 0 then .i8 else if n = 1 then .u8
  else if n = 2 then .i16 else if n = 3 then .u16
  else if n = 4 then .i32 else if n = 5 then .u32
  else if n = 6 then .i64 else if n = 7 then .u64
  else if n = 8 then .f32 else if n = 9 then .f64
  else if n = 10 then .boolean else if n = 11 then .function
  else if n = 12 then .closure else if n = 13 then .string
  else if n = 14 then .ref else if n = 15 then .refMut
  else if n = 16 then .slice else if n = 17 then .vector
  else if n = 18 then .anyref else if n = 19 then .enum
  else if n = 20 then .rustStruct else if n = 21 then .char
  else if n = 22 then .optional else if n = 23 then .unit
  else if n = 24 then .clamped else .unknown

/-- The cursor read `get`: reads the head opcode, panics (here: `none`)
past the end of the stream. -/
def getOp : List Nat → Option (Nat × List Nat)
  | [] => none
  | x :: rest => some (x, rest)

/-- The code-point loop of the `RUST_STRUCT` arm: read `n` code points,
each validated by `char::from_u32(..).unwrap()`. -/
def decodeChars : Nat → List Nat → Option (List Char × List Nat)
  | 0, data => some ([], data)
  | n + 1, data => do
    let (c, rest) ← getOp data
    if Nat.isValidChar c then
      let (cs, rest') ← decodeChars n rest
      some (Char.ofNat c :: cs, rest')
    else
      none

/-- The argument loop of `Function::decode`, parameterized by the
descriptor decoder for the current recursion depth. -/
def decodeArgsAux (dec : List Nat → Option (Descriptor × List Nat)) :
    Nat → List Nat → Option (List Descriptor × List Nat)
  | 0, data => some ([], data)
  | n + 1, data => do
    let (d, rest) ← dec data
    let (ds, rest') ← decodeArgsAux dec n rest
    some (d :: ds, rest')

/-- `Function::decode`: shim index, argument count, that many argument
descriptors, then the return descriptor. -/
def decodeFuncAux (dec : List Nat → Option (Descriptor × List Nat))
    (data : List Nat) : Option (Func × List Nat) := do
  let (shim_idx, r1) ← getOp data
  let (nargs, r2) ← getOp r1
  let (arguments, r3) ← decodeArgsAux dec nargs r2
  let (ret, r4) ← dec r3
  some (Func.mk arguments shim_idx ret, r4)

/-- `Closure::decode`: shim index, destructor index, mutability flag
(compared against `REFMUT`), an asserted `FUNCTION` opcode, then the inner
function. -/
def decodeClosureAux (dec : List Nat → Option (Descriptor × List Nat))
    (data : List Nat) : Option (Closure × List Nat) := do
  let (shim_idx, r1) ← getOp data
  let (dtor_idx, r2) ← getOp r1
  let (m, r3) ← getOp r2
  let (f, r4) ← getOp r3
  if f = 11 then
    let (fn, r5) ← decodeFuncAux dec r4
    some (Closure.mk shim_idx dtor_idx fn (m == 15), r5)
  else
    none

/-- One dispatch step of `Descriptor::_decode`: given the decoder for the
nested recursion (`dec`, taking the `clamped` flag and the stream), the
current `clamped` flag, the decoded opcode and the remaining stream,
produce the descriptor for that opcode. -/
def decodeStepAux (dec : Bool → List Nat → Option (Descriptor × List Nat))
    (clamped : Bool) : Opcode → List Nat → Option (Descriptor × List Nat)
  | .i8, rest => some (.i8, rest)
  | .u8, rest => some (if clamped then .clampedU8 else .u8, rest)
  | .i16, rest => some (.i16, rest)
  | .u16, rest => some (.u16, rest)
  | .i32, rest => some (.i32, rest)
  | .u32, rest => some (.u32, rest)
  | .i64, rest => some (.i64, rest)
  | .u64, rest => some (.u64, rest)
  | .f32, rest => some (.f32, rest)
  | .f64, rest => some (.f64, rest)
  | .boolean, rest => some (.boolean, rest)
  | .function, rest => do
    let (f, r) ← decodeFuncAux (fun d => dec false d) rest
    some (.function f, r)
  | .closure, rest => do
    let (c, r) ← decodeClosureAux (fun d => dec false d) rest
    some (.closure c, r)
  | .ref, rest => do
    let (d, r) ← dec clamped rest
    some (.ref d, r)
  | .refMut, rest => do
    let (d, r) ← dec clamped rest
    some (.refMut d, r)
  | .slice, rest => do
    let (d, r) ← dec clamped rest
    some (.slice d, r)
  | .vector, rest => do
    let (d, r) ← dec clamped rest
    some (.vector d, r)
  | .optional, rest => do
    let (d, r) ← dec clamped rest
    some (.option d, r)
  | .string, rest => some (.string, rest)
  | .anyref, rest => some (.anyref, rest)
  | .enum, rest => do
    let (h, r) ← getOp rest
    some (.enum h, r)
  | .rustStruct, rest => do
    let (n, r) ← getOp rest
    let (cs, r2) ← decodeChars n r
    some (.rustStruct (String.mk cs), r2)
  | .char, rest => some (.char, rest)
  | .unit, rest => some (.unit, rest)
  | .clamped, rest => dec true rest
  | .unknown, _ => none

/-- `Descriptor::_decode`, fuel-indexed. The `clamped` flag is set by the
`CLAMPED` modifier opcode and only affects an 8-bit-unsigned target.
The fuel only decreases when descending into a nested descriptor, and
every descriptor node consumes at least one opcode, so `length + 1` fuel
is always sufficient. -/
def decodeD : Nat → List Nat → Bool → Option (Descriptor × List Nat)
  | 0, _, _ => none
  | fuel + 1, data, clamped => do
    let (op, rest) ← getOp data
    decodeStepAux (fun c d => decodeD fuel d c) clamped (toOpcode op) rest

/-- `Descriptor::decode`: decode one top-level descriptor and assert the
stream is fully consumed (`assert!(data.is_empty())`). -/
def Descriptor.decode (data : List Nat) : Option Descriptor :=
  match decodeD (data.length + 1) data false with
  | some (d, []) => some d
  | _ => none

example : Descriptor.decode [22, 4] = some (.option .i32) := rfl
example : Descriptor.decode [24, 1] = some .clampedU8 := rfl
example : Descriptor.decode [11, 7, 1, 4, 23] =
    some (.function (.mk [.i32] 7 .unit)) := rfl
example : Descriptor.decode [20, 2, 65, 66] = some (.rustStruct "AB") := rfl
example : Descriptor.decode [22] = none := rfl
example : Descriptor.decode [4, 4] = none := rfl
example : Descriptor.decode [99] = none := rfl


lemma obind_some {α β : Type _} (a : α) (f : α → Option β) :
    (some a >>= f) = f a := rfl

lemma obind_none {α β : Type _} (f : α → Option β) :
    ((none : Option α) >>= f) = none := rfl

lemma toOpcode_of_ge {n : Nat} (h : 25 ≤ n) : toOpcode n = .unknown := by
  unfold toOpcode
  repeat rw [if_neg (by omega)]

lemma getOp_append (t : List Nat) {s : List Nat} {x : Nat} {r : List Nat}
    (h : getOp s = some (x, r)) : getOp (s ++ t) = some (x, r ++ t) := by
  cases s with
  | nil => simp [getOp] at h
  | cons a as =>
    simp only [getOp, Option.some.injEq, Prod.mk.injEq] at h
    obtain ⟨rfl, rfl⟩ := h
    rfl

lemma decodeChars_append :
    ∀ (n : Nat) (s t : List Nat) (cs : List Char) (r : List Nat),
      decodeChars n s = some (cs, r) →
      decodeChars n (s ++ t) = some (cs, r ++ t) := by
  intro n
  induction n with
  | zero =>
    intro s t cs r h
    simp only [decodeChars, Option.some.injEq, Prod.mk.injEq] at h
    obtain ⟨rfl, rfl⟩ := h
    rfl
  | succ n ih =>
    intro s t cs r h
    cases s with
    | nil => simp [decodeChars, getOp, obind_none] at h
    | cons c s' =>
      simp only [decodeChars] at h ⊢
      rw [show getOp (c :: s') = some (c, s') from rfl] at h
      rw [show getOp ((c :: s') ++ t) = some (c, s' ++ t) from rfl]
      simp only [obind_some] at h ⊢
      split at h
      case isTrue hval =>
        rw [if_pos hval]
        cases hd : decodeChars n s' with
        | none => rw [hd] at h; simp [obind_none] at h
        | some v =>
          obtain ⟨cs', r'⟩ := v
          rw [hd] at h
          simp only [obind_some, Option.some.injEq, Prod.mk.injEq] at h
          obtain ⟨rfl, rfl⟩ := h
          rw [ih s' t cs' r' hd]
          rfl
      case isFalse hval => simp at h

lemma decodeArgsAux_append (dec : List Nat → Option (Descriptor × List Nat))
    (hdec : ∀ s t d r, dec s = some (d, r) → dec (s ++ t) = some (d, r ++ t)) :
    ∀ (n : Nat) (s t : List Nat) (ds : List Descriptor) (r : List Nat),
      decodeArgsAux dec n s = some (ds, r) →
      decodeArgsAux dec n (s ++ t) = some (ds, r ++ t) := by
  intro n
  induction n with
  | zero =>
    intro s t ds r h
    simp only [decodeArgsAux, Option.some.injEq, Prod.mk.injEq] at h
    obtain ⟨rfl, rfl⟩ := h
    rfl
  | succ n ih =>
    intro s t ds r h
    simp only [decodeArgsAux] at h ⊢
    cases hd : dec s with
    | none => rw [hd] at h; simp [obind_none] at h
    | some v =>
      obtain ⟨d, rest⟩ := v
      rw [hd] at h
      rw [hdec s t d rest hd]
      simp only [obind_some] at h ⊢
      cases ha : decodeArgsAux dec n rest with
      | none => rw [ha] at h; simp [obind_none] at h
      | some w =>
        obtain ⟨ds', rest'⟩ := w
        rw [ha] at h
        simp only [obind_some, Option.some.injEq, Prod.mk.injEq] at h
        obtain ⟨rfl, rfl⟩ := h
        rw [ih rest t ds' rest' ha]
        rfl

lemma decodeFuncAux_append (dec : List Nat → Option (Descriptor × List Nat))
    (hdec : ∀ s t d r, dec s = some (d, r) → dec (s ++ t) = some (d, r ++ t)) :
    ∀ (s t : List Nat) (f : Func) (r : List Nat),
      decodeFuncAux dec s = some (f, r) →
      decodeFuncAux dec (s ++ t) = some (f, r ++ t) := by
  intro s t f r h
  simp only [decodeFuncAux] at h ⊢
  cases hg1 : getOp s with
  | none => rw [hg1] at h; simp [obind_none] at h
  | some v1 =>
    obtain ⟨shim, r1⟩ := v1
    rw [hg1] at h
    rw [getOp_append t hg1]
    simp only [obind_some] at h ⊢
    cases hg2 : getOp r1 with
    | none => rw [hg2] at h; simp [obind_none] at h
    | some v2 =>
      obtain ⟨nargs, r2⟩ := v2
      rw [hg2] at h
      rw [getOp_append t hg2]
      simp only [obind_some] at h ⊢
      cases ha : decodeArgsAux dec nargs r2 with
      | none => rw [ha] at h; simp [obind_none] at h
      | some v3 =>
        obtain ⟨arguments, r3⟩ := v3
        rw [ha] at h
        rw [decodeArgsAux_append dec hdec nargs r2 t arguments r3 ha]
        simp only [obind_some] at h ⊢
        cases hr : dec r3 with
        | none => rw [hr] at h; simp [obind_none] at h
        | some v4 =>
          obtain ⟨ret, r4⟩ := v4
          rw [hr] at h
          simp only [obind_some, Option.some.injEq, Prod.mk.injEq] at h
          obtain ⟨rfl, rfl⟩ := h
          rw [hdec r3 t ret r4 hr]
          rfl

lemma decodeClosureAux_append (dec : List Nat → Option (Descriptor × List Nat))
    (hdec : ∀ s t d r, dec s = some (d, r) → dec (s ++ t) = some (d, r ++ t)) :
    ∀ (s t : List Nat) (c : Closure) (r : List Nat),
      decodeClosureAux dec s = some (c, r) →
      decodeClosureAux dec (s ++ t) = some (c, r ++ t) := by
  intro s t c r h
  simp only [decodeClosureAux] at h ⊢
  cases hg1 : getOp s with
  | none => rw [hg1] at h; simp [obind_none] at h
  | some v1 =>
    obtain ⟨shim, r1⟩ := v1
    rw [hg1] at h
    rw [getOp_append t hg1]
    simp only [obind_some] at h ⊢
    cases hg2 : getOp r1 with
    | none => rw [hg2] at h; simp [obind_none] at h
    | some v2 =>
      obtain ⟨dtor, r2⟩ := v2
      rw [hg2] at h
      rw [getOp_append t hg2]
      simp only [obind_some] at h ⊢
      cases hg3 : getOp r2 with
      | none => rw [hg3] at h; simp [obind_none] at h
      | some v3 =>
        obtain ⟨m, r3⟩ := v3
        rw [hg3] at h
        rw [getOp_append t hg3]
        simp only [obind_some] at h ⊢
        cases hg4 : getOp r3 with
        | none => rw [hg4] at h; simp [obind_none] at h
        | some v4 =>
          obtain ⟨fop, r4⟩ := v4
          rw [hg4] at h
          rw [getOp_append t hg4]
          simp only [obind_some] at h ⊢
          split at h
          case isTrue hf =>
            rw [if_pos hf]
            cases hfn : decodeFuncAux dec r4 with
            | none => rw [hfn] at h; simp [obind_none] at h
            | some v5 =>
              obtain ⟨fn, r5⟩ := v5
              rw [hfn] at h
              simp only [obind_some, Option.some.injEq, Prod.mk.injEq] at h
              obtain ⟨rfl, rfl⟩ := h
              rw [decodeFuncAux_append dec hdec r4 t fn r5 hfn]
              rfl
          case isFalse hf => simp at h

lemma decodeStepAux_append (dec : Bool → List Nat → Option (Descriptor × List Nat))
    (hdec : ∀ c s t d r, dec c s = some (d, r) → dec c (s ++ t) = some (d, r ++ t)) :
    ∀ (clamped : Bool) (o : Opcode) (s t : List Nat) (d : Descriptor) (r : List Nat),
      decodeStepAux dec clamped o s = some (d, r) →
      decodeStepAux dec clamped o (s ++ t) = some (d, r ++ t) := by
  intro clamped o s t d r h
  cases o <;> simp only [decodeStepAux] at h ⊢ <;>
    first
    | (simp only [Option.some.injEq, Prod.mk.injEq] at h
       obtain ⟨rfl, rfl⟩ := h
       rfl)
    | (exact Option.noConfusion h)
    | (exact hdec true s t d r h)
    | (cases hd : dec clamped s with
       | none => rw [hd] at h; simp [obind_none] at h
       | some v =>
         obtain ⟨d', r'⟩ := v
         rw [hd] at h
         simp only [obind_some, Option.some.injEq, Prod.mk.injEq] at h
         obtain ⟨rfl, rfl⟩ := h
         rw [hdec clamped s t d' r' hd]
         rfl)
    | (cases hg : getOp s with
       | none => rw [hg] at h; simp [obind_none] at h
       | some v =>
         obtain ⟨x, r2⟩ := v
         rw [hg] at h
         simp only [obind_some, Option.some.injEq, Prod.mk.injEq] at h
         obtain ⟨rfl, rfl⟩ := h
         rw [getOp_append t hg]
         rfl)
    | (cases hg : getOp s with
       | none => rw [hg] at h; simp [obind_none] at h
       | some v =>
         obtain ⟨x, r2⟩ := v
         rw [hg] at h
         simp only [obind_some] at h
         cases hcs : decodeChars x r2 with
         | none => rw [hcs] at h; simp [obind_none] at h
         | some w =>
           obtain ⟨cs, r3⟩ := w
           rw [hcs] at h
           simp only [obind_some, Option.some.injEq, Prod.mk.injEq] at h
           obtain ⟨rfl, rfl⟩ := h
           rw [getOp_append t hg]
           simp only [obind_some]
           rw [decodeChars_append x r2 t cs r3 hcs]
           rfl)
    | (cases hf : decodeFuncAux (fun d => dec false d) s with
       | none => rw [hf] at h; simp [obind_none] at h
       | some v =>
         obtain ⟨fn, r'⟩ := v
         rw [hf] at h
         simp only [obind_some, Option.some.injEq, Prod.mk.injEq] at h
         obtain ⟨rfl, rfl⟩ := h
         rw [decodeFuncAux_append _ (fun s t d r hh => hdec false s t d r hh) s t fn r' hf]
         rfl)
    | (cases hc : decodeClosureAux (fun d => dec false d) s with
       | none => rw [hc] at h; simp [obind_none] at h
       | some v =>
         obtain ⟨cl, r'⟩ := v
         rw [hc] at h
         simp only [obind_some, Option.some.injEq, Prod.mk.injEq] at h
         obtain ⟨rfl, rfl⟩ := h
         rw [decodeClosureAux_append _ (fun s t d r hh => hdec false s t d r hh) s t cl r' hc]
         rfl)

lemma decodeD_append :
    ∀ (fuel : Nat) (s : List Nat) (c : Bool) (t : List Nat) (d : Descriptor)
      (r : List Nat),
      decodeD fuel s c = some (d, r) → decodeD fuel (s ++ t) c = some (d, r ++ t) := by
  intro fuel
  induction fuel with
  | zero => intro s c t d r h; simp [decodeD] at h
  | succ n ih =>
    intro s c t d r h
    cases s with
    | nil => simp [decodeD, getOp, obind_none] at h
    | cons op s' =>
      simp only [decodeD] at h ⊢
      rw [show getOp (op :: s') = some (op, s') from rfl] at h
      rw [show getOp ((op :: s') ++ t) = some (op, s' ++ t) from rfl]
      simp only [obind_some] at h ⊢
      exact decodeStepAux_append _ (fun c2 s2 t2 d2 r2 hh => ih s2 c2 t2 d2 r2 hh)
        c (toOpcode op) s' t d r h

lemma decodeArgsAux_congr (dec1 dec2 : List Nat → Option (Descriptor × List Nat))
    (hdec : ∀ s v, dec1 s = some v → dec2 s = some v) :
    ∀ (n : Nat) (s : List Nat) (v : List Descriptor × List Nat),
      decodeArgsAux dec1 n s = some v → decodeArgsAux dec2 n s = some v := by
  intro n
  induction n with
  | zero => intro s v h; exact h
  | succ n ih =>
    intro s v h
    simp only [decodeArgsAux] at h ⊢
    cases hd : dec1 s with
    | none => rw [hd] at h; simp [obind_none] at h
    | some w =>
      obtain ⟨d, rest⟩ := w
      rw [hd] at h
      rw [hdec s (d, rest) hd]
      simp only [obind_some] at h ⊢
      cases ha : decodeArgsAux dec1 n rest with
      | none => rw [ha] at h; simp [obind_none] at h
      | some w2 =>
        rw [ha] at h
        rw [ih rest w2 ha]
        exact h

lemma decodeFuncAux_congr (dec1 dec2 : List Nat → Option (Descriptor × List Nat))
    (hdec : ∀ s v, dec1 s = some v → dec2 s = some v) :
    ∀ (s : List Nat) (v : Func × List Nat),
      decodeFuncAux dec1 s = some v → decodeFuncAux dec2 s = some v := by
  intro s v h
  simp only [decodeFuncAux] at h ⊢
  cases hg1 : getOp s with
  | none => rw [hg1] at h; simp [obind_none] at h
  | some v1 =>
    obtain ⟨shim, r1⟩ := v1
    rw [hg1] at h
    simp only [obind_some] at h ⊢
    cases hg2 : getOp r1 with
    | none => rw [hg2] at h; simp [obind_none] at h
    | some v2 =>
      obtain ⟨nargs, r2⟩ := v2
      rw [hg2] at h
      simp only [obind_some] at h ⊢
      cases ha : decodeArgsAux dec1 nargs r2 with
      | none => rw [ha] at h; simp [obind_none] at h
      | some v3 =>
        obtain ⟨arguments, r3⟩ := v3
        rw [ha] at h
        rw [decodeArgsAux_congr dec1 dec2 hdec nargs r2 (arguments, r3) ha]
        simp only [obind_some] at h ⊢
        cases hr : dec1 r3 with
        | none => rw [hr] at h; simp [obind_none] at h
        | some v4 =>
          rw [hr] at h
          rw [hdec r3 v4 hr]
          exact h

lemma decodeClosureAux_congr (dec1 dec2 : List Nat → Option (Descriptor × List Nat))
    (hdec : ∀ s v, dec1 s = some v → dec2 s = some v) :
    ∀ (s : List Nat) (v : Closure × List Nat),
      decodeClosureAux dec1 s = some v → decodeClosureAux dec2 s = some v := by
  intro s v h
  simp only [decodeClosureAux] at h ⊢
  cases hg1 : getOp s with
  | none => rw [hg1] at h; simp [obind_none] at h
  | some v1 =>
    obtain ⟨shim, r1⟩ := v1
    rw [hg1] at h
    simp only [obind_some] at h ⊢
    cases hg2 : getOp r1 with
    | none => rw [hg2] at h; simp [obind_none] at h
    | some v2 =>
      obtain ⟨dtor, r2⟩ := v2
      rw [hg2] at h
      simp only [obind_some] at h ⊢
      cases hg3 : getOp r2 with
      | none => rw [hg3] at h; simp [obind_none] at h
      | some v3 =>
        obtain ⟨m, r3⟩ := v3
        rw [hg3] at h
        simp only [obind_some] at h ⊢
        cases hg4 : getOp r3 with
        | none => rw [hg4] at h; simp [obind_none] at h
        | some v4 =>
          obtain ⟨fop, r4⟩ := v4
          rw [hg4] at h
          simp only [obind_some] at h ⊢
          split at h
          case isTrue hf =>
            rw [if_pos hf]
            cases hfn : decodeFuncAux dec1 r4 with
            | none => rw [hfn] at h; simp [obind_none] at h
            | some v5 =>
              rw [hfn] at h
              rw [decodeFuncAux_congr dec1 dec2 hdec r4 v5 hfn]
              exact h
          case isFalse hf => simp at h

lemma decodeStepAux_congr (dec1 dec2 : Bool → List Nat → Option (Descriptor × List Nat))
    (hdec : ∀ c s v, dec1 c s = some v → dec2 c s = some v) :
    ∀ (clamped : Bool) (o : Opcode) (s : List Nat) (v : Descriptor × List Nat),
      decodeStepAux dec1 clamped o s = some v →
      decodeStepAux dec2 clamped o s = some v := by
  intro clamped o s v h
  cases o <;> simp only [decodeStepAux] at h ⊢ <;>
    first
    | (exact h)
    | (exact hdec true s v h)
    | (cases hd : dec1 clamped s with
       | none => rw [hd] at h; simp [obind_none] at h
       | some w =>
         rw [hd] at h
         rw [hdec clamped s w hd]
         exact h)
    | (cases hf : decodeFuncAux (fun d => dec1 false d) s with
       | none => rw [hf] at h; simp [obind_none] at h
       | some w =>
         rw [hf] at h
         rw [decodeFuncAux_congr _ _ (fun s v hh => hdec false s v hh) s w hf]
         exact h)
    | (cases hc : decodeClosureAux (fun d => dec1 false d) s with
       | none => rw [hc] at h; simp [obind_none] at h
       | some w =>
         rw [hc] at h
         rw [decodeClosureAux_congr _ _ (fun s v hh => hdec false s v hh) s w hc]
         exact h)

lemma decodeD_mono :
    ∀ (f g : Nat), f ≤ g → ∀ (s : List Nat) (c : Bool) (v : Descriptor × List Nat),
      decodeD f s c = some v → decodeD g s c = some v := by
  intro f
  induction f with
  | zero => intro g _ s c v h; simp [decodeD] at h
  | succ n ih =>
    intro g hg s c v h
    obtain ⟨g', rfl⟩ : ∃ g'', g = g'' + 1 := ⟨g - 1, by omega⟩
    have hg' : n ≤ g' := by omega
    cases s with
    | nil => simp [decodeD, getOp, obind_none] at h
    | cons op s' =>
      simp only [decodeD] at h ⊢
      rw [show getOp (op :: s') = some (op, s') from rfl] at h ⊢
      simp only [obind_some] at h ⊢
      exact decodeStepAux_congr _ _ (fun c2 s2 v2 hh => ih g' hg' s2 c2 v2 hh)
        c (toOpcode op) s' v h

lemma decode_eq_some {s : List Nat} {d : Descriptor}
    (h : Descriptor.decode s = some d) :
    decodeD (s.length + 1) s false = some (d, []) := by
  unfold Descriptor.decode at h
  cases hd : decodeD (s.length + 1) s false with
  | none => rw [hd] at h; exact Option.noConfusion h
  | some v =>
    obtain ⟨d', rest⟩ := v
    rw [hd] at h
    cases rest with
    | nil =>
      have h' : d' = d := Option.some.inj h
      rw [h']
    | cons a as => exact Option.noConfusion h

/-- C5: top-level decoding succeeds only when one complete descriptor
consumes the stream exactly.  (i) If a stream decodes, appending leftover
opcodes makes decoding fail; (ii) truncating a decodable stream makes
decoding fail; (iii) a stream starting with an opcode outside the known
set (0..24) fails; (iv) the empty stream fails (the cursor read past the
end). -/
theorem c5_decode_exact_consumption :
    (∀ (s t : List Nat) (d : Descriptor),
      Descriptor.decode s = some d → t ≠ [] → Descriptor.decode (s ++ t) = none) ∧
    (∀ (s t : List Nat) (d : Descriptor),
      Descriptor.decode (s ++ t) = some d → t ≠ [] → Descriptor.decode s = none) ∧
    (∀ (op : Nat) (rest : List Nat), 25 ≤ op →
      Descriptor.decode (op :: rest) = none) ∧
    Descriptor.decode [] = none := by
  have part1 : ∀ (s t : List Nat) (d : Descriptor),
      Descriptor.decode s = some d → t ≠ [] → Descriptor.decode (s ++ t) = none := by
    intro s t d h ht
    have hd := decode_eq_some h
    have h2 : decodeD (s.length + t.length + 1) s false = some (d, []) :=
      decodeD_mono _ _ (by omega) _ _ _ hd
    have h3 : decodeD (s.length + t.length + 1) (s ++ t) false = some (d, [] ++ t) :=
      decodeD_append _ _ _ t _ _ h2
    unfold Descriptor.decode
    rw [show (s ++ t).length + 1 = s.length + t.length + 1 by simp]
    rw [h3]
    cases t with
    | nil => exact absurd rfl ht
    | cons a as => rfl
  refine ⟨part1, ?_, ?_, rfl⟩
  · intro s t d h ht
    cases hs : Descriptor.decode s with
    | none => rfl
    | some d' =>
      have := part1 s t d' hs ht
      rw [this] at h
      exact Option.noConfusion h
  · intro op rest h
    unfold Descriptor.decode
    simp only [List.length_cons, decodeD]
    rw [show getOp (op :: rest) = some (op, rest) from rfl]
    simp only [obind_some, toOpcode_of_ge h, decodeStepAux]

/-- Witness for C5: concrete applications of all three hypothesis-bearing
conjuncts — `[22, 4]` decodes (to `Option(I32)`), so both the extended
stream `[22, 4, 4]` and the truncated stream `[22]` fail, and the unknown
opcode `99` fails. -/
theorem c5_witness :
    Descriptor.decode [22, 4, 4] = none ∧
    Descriptor.decode [22] = none ∧
    Descriptor.decode [99] = none :=
  ⟨c5_decode_exact_consumption.1 [22, 4] [4] (.option .i32) rfl (by simp),
   c5_decode_exact_consumption.2.1 [22] [4] (.option .i32) rfl (by simp),
   c5_decode_exact_consumption.2.2.1 99 [] (by omega)⟩

/-! ## WebIDL binding synthesis (`webidl.rs`)

The stateful `Context` pass is embedded as explicit state passing over a
`Ctx` record.  `HashMap`s become association lists (`mfind` / `minsert` /
`merase` mirror `get` / `insert` / `remove`), `HashSet`s become
duplicate-free lists, `bail!` becomes `PResult.err`, and panics (unguarded
indexing, failed `assert!`) become `PResult.crash`. -/

/-- Result of one handler of the pass: success, a `bail!` error, or a
panic. -/
inductive PResult (α : Type) where
  | ok (a : α)
  | err (msg : String)
  | crash (msg : String)

instance : Monad PResult where
  pure := PResult.ok
  bind x f :=
    match x with
    | .ok a => f a
    | .err m => .err m
    | .crash m => .crash m

lemma presult_bind_ok {α β : Type} (a : α) (f : α → PResult β) :
    ((PResult.ok a : PResult α) >>= f) = f a := rfl

def mfind {κ α : Type} [DecidableEq κ] : List (κ × α) → κ → Option α
  | [], _ => none
  | (k', v) :: rest, k => if k' = k then some v else mfind rest k

def minsert {κ α : Type} [DecidableEq κ] : List (κ × α) → κ → α → List (κ × α)
  | [], k, v => [(k, v)]
  | (k', v') :: rest, k, v =>
    if k' = k then (k, v) :: rest else (k', v') :: minsert rest k v

def merase {κ α : Type} [DecidableEq κ] : List (κ × α) → κ → List (κ × α)
  | [], _ => []
  | (k', v') :: rest, k => if k' = k then rest else (k', v') :: merase rest k

def mcontains {κ α : Type} [DecidableEq κ] (m : List (κ × α)) (k : κ) : Bool :=
  (mfind m k).isSome

/-- `HashMap::entry(k).or_insert(Vec::new()).extend(xs)`. -/
def maddExtend {κ α : Type} [DecidableEq κ] (m : List (κ × List α)) (k : κ)
    (xs : List α) : List (κ × List α) :=
  match mfind m k with
  | some v => minsert m k (v ++ xs)
  | none => minsert m k xs

/-- `HashSet::insert`. -/
def hsInsert {κ : Type} [DecidableEq κ] (s : List κ) (k : κ) : List κ :=
  if k ∈ s then s else s ++ [k]

/-- `str::trim_matches('"')`: strip all leading and trailing quote
characters. -/
def trimQuotes (s : String) : String :=
  String.mk (((s.data.dropWhile (fun c => c = '"')).reverse.dropWhile
    (fun c => c = '"')).reverse)

/-- `concatenate_comments`: trim quotes from each comment and join with
newlines. -/
def concatenate_comments (comments : List String) : String :=
  String.intercalate "\n" (comments.map trimQuotes)

/-- Modelled from the spec: `wasm_bindgen_shared::struct_function_export_name`
is not under `src/`; the spec only says class members get "a
class+function mangled name".  Modelled as the class and function names
joined by an underscore. -/
def struct_function_export_name (cls f : String) : String :=
  cls ++ "_" ++ f

/-- Modelled from the spec: `wasm_bindgen_shared::struct_field_get` is not
under `src/`; it computes the getter shim name for a struct field. -/
def struct_field_get (cls f : String) : String :=
  "__wbg_get_" ++ cls ++ "_" ++ f

/-- Modelled from the spec: `wasm_bindgen_shared::struct_field_set` is not
under `src/`; it computes the setter shim name for a struct field. -/
def struct_field_set (cls f : String) : String :=
  "__wbg_set_" ++ cls ++ "_" ++ f

/-- Modelled from the spec: `wasm_bindgen_shared::new_function` is not
under `src/`; it computes the struct's generated "wrap pointer into host
object" shim name. -/
def new_function (cls : String) : String :=
  "__wbg_" ++ cls ++ "_new"

def PLACEHOLDER_MODULE : String := "__wbindgen_placeholder__"

/-! ### Decoded program units (the `decode` module, consumed as input) -/

inductive ImportModule where
  | named (s : String)
  | rawNamed (s : String)
  | inline (idx : Nat)
  | noModule

/-- `decode::Function`. -/
structure DecFunction where
  name : String
  arg_names : List String

inductive OperationKind where
  | regular
  | getter (f : String)
  | setter (f : String)
  | indexingGetter
  | indexingSetter
  | indexingDeleter

structure Operation where
  is_static : Bool
  kind : OperationKind

inductive MethodKind where
  | constructor
  | operation (op : Operation)

/-- `decode::MethodData`; `cls` is the `class` field. -/
structure MethodData where
  cls : String
  kind : MethodKind

structure ImportFunction where
  shim : String
  catch_ : Bool
  variadic : Bool
  method : Option MethodData
  structural : Bool
  function : DecFunction

structure ImportStatic where
  name : String
  shim : String

/-- `decode::ImportType`. -/
structure ImportTypeDecl where
  name : String
  instanceof_shim : String
  vendor_prefixes : List String

inductive ImportKind where
  | function (f : ImportFunction)
  | static (s : ImportStatic)
  | type (t : ImportTypeDecl)
  | enum

structure Import where
  module : ImportModule
  js_namespace : Option String
  kind : ImportKind

/-- `decode::Export`; `cls` is the `class` field. -/
structure Export where
  cls : Option String
  comments : List String
  consumed : Bool
  function : DecFunction
  method_kind : MethodKind
  start : Bool

structure StructField where
  name : String
  readonly : Bool
  comments : List String

/-- `decode::Struct`. -/
structure DecStruct where
  name : String
  fields : List StructField
  comments : List String

/-- `decode::Enum`. -/
structure DecEnum where
  name : String
  variants : List (String × Nat)
  comments : List String

structure LocalModule where
  identifier : String
  contents : String

/-- `decode::Program`: one decoded program unit. -/
structure Program where
  exports : List Export
  enums : List DecEnum
  imports : List Import
  structs : List DecStruct
  typescript_custom_sections : List String
  local_modules : List LocalModule
  inline_js : List String
  unique_crate_identifier : String
  package_json : Option String

/-! ### Output records (`WebidlCustomSection` / `WasmBindgenAux`) -/

inductive JsImportName where
  | global (name : String)
  | module (module : String) (name : String)
  | localModule (module : String) (name : String)
  | inlineJs (unique_crate_identifier : String) (snippet_idx_in_crate : Nat)
      (name : String)
  | vendorPrefixed (name : String) (prefixes : List String)

structure JsImport where
  name : JsImportName
  fields : List String

/-- `AuxExportKind`; `cls` stands for the `class` fields. -/
inductive AuxExportKind where
  | function (name : String)
  | constructor (cls : String)
  | getter (cls : String) (field : String)
  | setter (cls : String) (field : String)
  | staticFunction (cls : String) (name : String)
  | method (cls : String) (name : String) (consumed : Bool)

structure AuxExport where
  debug_name : String
  comments : String
  arg_names : Option (List String)
  kind : AuxExportKind

structure AuxEnum where
  name : String
  comments : String
  variants : List (String × Nat)

structure AuxStruct where
  name : String
  comments : String

inductive AuxValue where
  | bare (j : JsImport)
  | getter (j : JsImport) (field : String)
  | classGetter (j : JsImport) (field : String)
  | setter (j : JsImport) (field : String)
  | classSetter (j : JsImport) (field : String)

/-- `AuxImport`; the intrinsic payload (out of scope here) is modelled by
its symbol name. -/
inductive AuxImport where
  | value (v : AuxValue)
  | instanceof (j : JsImport)
  | static (j : JsImport)
  | closure (c : Closure)
  | structuralMethod (name : String)
  | structuralGetter (field : String)
  | structuralClassGetter (j : JsImport) (field : String)
  | structuralSetter (field : String)
  | structuralClassSetter (j : JsImport) (field : String)
  | indexingGetterOfClass (j : JsImport)
  | indexingGetterOfObject
  | indexingSetterOfClass (j : JsImport)
  | indexingSetterOfObject
  | indexingDeleterOfClass (j : JsImport)
  | indexingDeleterOfObject
  | wrapInExportedClass (cls : String)
  | intrinsic (name : String)

inductive ImportBinding where
  | constructor (f : Func)
  | method (f : Func)
  | function (f : Func)

/-- One entry of `module.imports` as read by the verifier: owning module
name, import name, id, and whether the import kind is a function. -/
structure ModImport where
  module : String
  name : String
  id : Nat
  is_function : Bool

/-- The synthesis `Context`.  `mod_start` / `mod_funcs` / `next_fid` model
the walrus module's start slot and function store (a synthesized function
is a fresh id with a body given by the list of functions it calls, in
order); `mod_imports` models `module.imports`; `bindings_*` are the
`WebidlCustomSection` maps and the remaining fields are the
`WasmBindgenAux` record plus the context's own indices. -/
structure Ctx where
  start_found : Bool
  mod_start : Option Nat
  mod_funcs : List (Nat × List Nat)
  next_fid : Nat
  mod_imports : List ModImport
  bindings_exports : List (Nat × Func)
  bindings_imports : List (Nat × ImportBinding)
  extra_typescript : String
  local_modules : List (String × String)
  snippets : List (String × List String)
  package_jsons : List String
  export_map : List (Nat × AuxExport)
  import_map : List (Nat × AuxImport)
  imports_with_catch : List Nat
  imports_with_variadic : List Nat
  aux_enums : List AuxEnum
  aux_structs : List AuxStruct
  function_exports : List (String × (Nat × Nat))
  function_imports : List (String × (Nat × Nat))
  vendor_prefixes : List (String × List String)
  unique_crate_identifier : String
  descriptors : List (String × Descriptor)

/-- `Descriptor::unwrap_function` (panics in Rust when the descriptor is
not a `Function`; here `none`). -/
def Descriptor.unwrap_function : Descriptor → Option Func
  | .function f => some f
  | _ => none

/-- `Context::add_start_function`: a second explicit start is fatal; with
no existing module start install directly; otherwise synthesize a fresh
function calling the previous start first and the new function second. -/
def Ctx.add_start_function (ctx : Ctx) (id : Nat) : PResult Ctx :=
  if ctx.start_found then .err "cannot specify two `start` functions"
  else
    let ctx1 := { ctx with start_found := true }
    match ctx1.mod_start with
    | none => .ok { ctx1 with mod_start := some id }
    | some prev_start =>
      .ok { ctx1 with
        mod_funcs := ctx1.mod_funcs ++ [(ctx1.next_fid, [prev_start, id])]
        mod_start := some ctx1.next_fid
        next_fid := ctx1.next_fid + 1 }

/-- The boundary name of an export: `struct_function_export_name` for a
class member, the plain function name otherwise. -/
def wasmNameOf (e : Export) : String :=
  match e.cls with
  | some cls => struct_function_export_name cls e.function.name
  | none => e.function.name

/-- The method-kind dispatch of `Context::export`: mutate the descriptor
(prepending the implicit `I32` pointer argument where required) and pick
the placement tag. -/
def exportKindOf (descriptor : Func) (e : Export) : Func × AuxExportKind :=
  match e.cls with
  | some cls =>
    match e.method_kind with
    | .constructor => (descriptor, .constructor cls)
    | .operation op =>
      match op.kind with
      | .getter f =>
        (Func.mk (.i32 :: descriptor.arguments) descriptor.shim_idx descriptor.ret,
         .getter cls f)
      | .setter f =>
        (Func.mk (.i32 :: descriptor.arguments) descriptor.shim_idx descriptor.ret,
         .setter cls f)
      | _ =>
        if op.is_static then (descriptor, .staticFunction cls e.function.name)
        else
          (Func.mk (.i32 :: descriptor.arguments) descriptor.shim_idx descriptor.ret,
           .method cls e.function.name e.consumed)
  | none => (descriptor, .function e.function.name)

/-- The tail of `Context::export` after the descriptor claim and
function-export lookup have succeeded: optional start registration,
method-kind dispatch, and the two record insertions. -/
def Ctx.exportTail (ctx1 : Ctx) (e : Export) (descriptor : Func)
    (export_id id : Nat) (wasm_name : String) : PResult Ctx := do
  let ctx2 ← if e.start then ctx1.add_start_function id else .ok ctx1
  let (descriptor2, kind) := exportKindOf descriptor e
  .ok { ctx2 with
    export_map := minsert ctx2.export_map export_id
      { debug_name := wasm_name
        comments := concatenate_comments e.comments
        arg_names := some e.function.arg_names
        kind := kind }
    bindings_exports := minsert ctx2.bindings_exports export_id descriptor2 }

/-- `Context::export`. -/
def Ctx.export_ (ctx : Ctx) (e : Export) : PResult Ctx :=
  let wasm_name := wasmNameOf e
  match mfind ctx.descriptors wasm_name with
  | none => .ok ctx
  | some dd =>
    match dd.unwrap_function with
    | none => .crash "not a function"
    | some descriptor =>
      let ctx1 := { ctx with descriptors := merase ctx.descriptors wasm_name }
      match mfind ctx1.function_exports wasm_name with
      | none => .crash "key not found in function_exports"
      | some (export_id, id) =>
        Ctx.exportTail ctx1 e descriptor export_id id wasm_name

/-- `Context::determine_import`: resolve an imported item to a `JsImport`,
validating vendor-prefix constraints. -/
def Ctx.determine_import (ctx : Ctx) (imp : Import) (item : String) :
    PResult JsImport :=
  let is_local_snippet :=
    match imp.module with
    | .named s => mcontains ctx.local_modules s
    | .rawNamed _ => false
    | .inline _ => true
    | .noModule => false
  match mfind ctx.vendor_prefixes item with
  | some vendor_prefixes =>
    if vendor_prefixes.length = 0 then
      .crash "assert failed: vendor_prefixes.len() > 0"
    else if is_local_snippet then
      .err "local JS snippets do not support vendor prefixes"
    else
      match imp.module with
      | .named _ => .err "vendor prefixes are not supported when importing from modules"
      | _ =>
        match imp.js_namespace with
        | some _ => .err "js namespace is not supported when it lists a polyfill"
        | none => .ok { name := .vendorPrefixed item vendor_prefixes, fields := [] }
  | none =>
    let (name, fields) :=
      match imp.js_namespace with
      | some ns => (ns, [item])
      | none => (item, ([] : List String))
    let jname :=
      match imp.module with
      | .named module =>
        if is_local_snippet then JsImportName.localModule module name
        else JsImportName.module module name
      | .rawNamed module => JsImportName.module module name
      | .inline idx =>
        let offset :=
          match mfind ctx.snippets ctx.unique_crate_identifier with
          | some s => s.length
          | none => 0
        JsImportName.inlineJs ctx.unique_crate_identifier (idx + offset) name
      | .noModule => JsImportName.global name
    .ok { name := jname, fields := fields }

/-- `Context::determine_import_op`: dispatch a non-constructor operation
on {operation kind × is_static × structural}; the returned `Bool` says
whether the import binding is `Method`. -/
def determine_import_op (cls : JsImport) (function : DecFunction)
    (structural : Bool) (op : Operation) : PResult (AuxImport × Bool) :=
  match op.kind with
  | .regular =>
    if op.is_static then
      .ok (.value (.bare { cls with fields := cls.fields ++ [function.name] }), false)
    else if structural then
      .ok (.structuralMethod function.name, false)
    else
      .ok (.value (.bare
        { cls with fields := cls.fields ++ ["prototype", function.name] }), true)
  | .getter field =>
    if structural then
      if op.is_static then .ok (.structuralClassGetter cls field, false)
      else .ok (.structuralGetter field, false)
    else
      if op.is_static then .ok (.value (.classGetter cls field), true)
      else .ok (.value (.getter cls field), true)
  | .setter field =>
    if structural then
      if op.is_static then .ok (.structuralClassSetter cls field, false)
      else .ok (.structuralSetter field, false)
    else
      if op.is_static then .ok (.value (.classSetter cls field), true)
      else .ok (.value (.setter cls field), true)
  | .indexingGetter =>
    if !structural then .err "indexing getters must always be structural"
    else if op.is_static then .ok (.indexingGetterOfClass cls, false)
    else .ok (.indexingGetterOfObject, false)
  | .indexingSetter =>
    if !structural then .err "indexing setters must always be structural"
    else if op.is_static then .ok (.indexingSetterOfClass cls, false)
    else .ok (.indexingSetterOfObject, false)
  | .indexingDeleter =>
    if !structural then .err "indexing deleters must always be structural"
    else if op.is_static then .ok (.indexingDeleterOfClass cls, false)
    else .ok (.indexingDeleterOfObject, false)

/-- `Context::import_function`. -/
def Ctx.import_function (ctx : Ctx) (imp : Import) (f : ImportFunction) :
    PResult Ctx :=
  match mfind ctx.function_imports f.shim with
  | none => .ok ctx
  | some (import_id, _id) =>
    match mfind ctx.descriptors f.shim with
    | none => .ok ctx
    | some dd =>
      match dd.unwrap_function with
      | none => .crash "not a function"
      | some descriptor =>
        let ctx1 := { ctx with descriptors := merase ctx.descriptors f.shim }
        let ctx2 :=
          if f.variadic then
            { ctx1 with imports_with_variadic := hsInsert ctx1.imports_with_variadic import_id }
          else ctx1
        let ctx3 :=
          if f.catch_ then
            { ctx2 with imports_with_catch := hsInsert ctx2.imports_with_catch import_id }
          else ctx2
        match f.method with
        | some data => do
          let cls ← ctx3.determine_import imp data.cls
          match data.kind with
          | .constructor =>
            .ok { ctx3 with
              bindings_imports := minsert ctx3.bindings_imports import_id
                (.constructor descriptor)
              import_map := minsert ctx3.import_map import_id (.value (.bare cls)) }
          | .operation op => do
            let (imp2, isMethod) ← determine_import_op cls f.function f.structural op
            let binding :=
              if isMethod then ImportBinding.method descriptor
              else ImportBinding.function descriptor
            .ok { ctx3 with
              bindings_imports := minsert ctx3.bindings_imports import_id binding
              import_map := minsert ctx3.import_map import_id imp2 }
        | none =>
          let ctx4 := { ctx3 with
            bindings_imports := minsert ctx3.bindings_imports import_id
              (.function descriptor) }
          do
            let name ← ctx4.determine_import imp f.function.name
            .ok { ctx4 with
              import_map := minsert ctx4.import_map import_id (.value (.bare name)) }

/-- `Context::import_static`. -/
def Ctx.import_static (ctx : Ctx) (imp : Import) (st : ImportStatic) :
    PResult Ctx :=
  match mfind ctx.function_imports st.shim with
  | none => .ok ctx
  | some (import_id, _id) =>
    let ctx1 := { ctx with
      bindings_imports := minsert ctx.bindings_imports import_id
        (.function (Func.mk [] 0 .anyref)) }
    do
      let j ← ctx1.determine_import imp st.name
      .ok { ctx1 with import_map := minsert ctx1.import_map import_id (.static j) }

/-- `Context::import_type`. -/
def Ctx.import_type (ctx : Ctx) (imp : Import) (t : ImportTypeDecl) :
    PResult Ctx :=
  match mfind ctx.function_imports t.instanceof_shim with
  | none => .ok ctx
  | some (import_id, _id) =>
    let ctx1 := { ctx with
      bindings_imports := minsert ctx.bindings_imports import_id
        (.function (Func.mk [.ref .anyref] 0 .i32)) }
    do
      let j ← ctx1.determine_import imp t.name
      .ok { ctx1 with import_map := minsert ctx1.import_map import_id (.instanceof j) }

/-- `Context::import`: dispatch on the import kind. -/
def Ctx.importHandler (ctx : Ctx) (imp : Import) : PResult Ctx :=
  match imp.kind with
  | .function f => ctx.import_function imp f
  | .static s => ctx.import_static imp s
  | .type t => ctx.import_type imp t
  | .enum => .ok ctx

/-- `Context::enum_`. -/
def Ctx.enum_ (ctx : Ctx) (e : DecEnum) : PResult Ctx :=
  .ok { ctx with aux_enums := ctx.aux_enums ++
    [{ name := e.name
       comments := concatenate_comments e.comments
       variants := e.variants }] }

/-- One iteration of the field loop of `Context::struct_`. -/
def Ctx.structField (ctx : Ctx) (struct_name : String) (field : StructField) :
    PResult Ctx :=
  let getter := struct_field_get struct_name field.name
  let setter := struct_field_set struct_name field.name
  match mfind ctx.descriptors getter with
  | none => .ok ctx
  | some descriptor =>
    let ctx1 := { ctx with descriptors := merase ctx.descriptors getter }
    match mfind ctx1.function_exports getter with
    | none => .crash "key not found in function_exports"
    | some (getter_id, _) =>
      let ctx2 := { ctx1 with
        bindings_exports := minsert ctx1.bindings_exports getter_id
          (Func.mk [.i32] 0 descriptor)
        export_map := minsert ctx1.export_map getter_id
          { debug_name := "getter for `" ++ struct_name ++ "::" ++ field.name ++ "`"
            arg_names := none
            comments := concatenate_comments field.comments
            kind := .getter struct_name field.name } }
      if field.readonly then .ok ctx2
      else
        match mfind ctx2.function_exports setter with
        | none => .crash "key not found in function_exports"
        | some (setter_id, _) =>
          .ok { ctx2 with
            bindings_exports := minsert ctx2.bindings_exports setter_id
              (Func.mk [.i32, descriptor] 0 .unit)
            export_map := minsert ctx2.export_map setter_id
              { debug_name := "setter for `" ++ struct_name ++ "::" ++ field.name ++ "`"
                arg_names := none
                comments := concatenate_comments field.comments
                kind := .setter struct_name field.name } }

/-- Sequence a handler over a list, stopping at the first error or panic
(the `for` loops with `?` of `Context::program`). -/
def foldPR {α : Type} (f : Ctx → α → PResult Ctx) : Ctx → List α → PResult Ctx
  | ctx, [] => .ok ctx
  | ctx, x :: xs => do
    let ctx' ← f ctx x
    foldPR f ctx' xs

/-- `Context::struct_`. -/
def Ctx.struct_ (ctx : Ctx) (s : DecStruct) : PResult Ctx := do
  let ctx1 ← foldPR (fun c fld => c.structField s.name fld) ctx s.fields
  let ctx2 := { ctx1 with aux_structs := ctx1.aux_structs ++
    [{ name := s.name, comments := concatenate_comments s.comments }] }
  let wrap_constructor := new_function s.name
  match mfind ctx2.function_imports wrap_constructor with
  | some (import_id, _id) =>
    .ok { ctx2 with
      import_map := minsert ctx2.import_map import_id (.wrapInExportedClass s.name)
      bindings_imports := minsert ctx2.bindings_imports import_id
        (.function (Func.mk [.i32] 0 .anyref)) }
  | none => .ok ctx2

/-- One iteration of the local-modules loop of `Context::program`: insert
and assert that re-registered identifiers carry identical contents. -/
def Ctx.localModule (ctx : Ctx) (m : LocalModule) : PResult Ctx :=
  let prev := mfind ctx.local_modules m.identifier
  let ctx1 := { ctx with
    local_modules := minsert ctx.local_modules m.identifier m.contents }
  match prev with
  | some p =>
    if p = m.contents then .ok ctx1
    else .crash "assert failed: local module contents differ"
  | none => .ok ctx1

/-- The vendor-prefix collection loop of `Context::program`: prefixes of
every type import of the unit (skipping empty lists) are merged into the
map before any import of the unit is bound. -/
def collectVendorPrefixes (m : List (String × List String)) :
    List Import → List (String × List String)
  | [] => m
  | imp :: rest =>
    let m' :=
      match imp.kind with
      | .type t =>
        if t.vendor_prefixes.length = 0 then m
        else maddExtend m t.name t.vendor_prefixes
      | _ => m
    collectVendorPrefixes m' rest

/-- The typescript-sections loop of `Context::program`. -/
def appendTypescript (acc : String) : List String → String
  | [] => acc
  | s :: rest => appendTypescript (acc ++ s ++ "\n\n") rest

/-- `Context::program`: one program unit, phase by phase in source order —
crate identifier, local modules, package.json, exports, vendor-prefix
collection, imports, enums, structs, typescript sections, snippets. -/
def Ctx.program (ctx : Ctx) (p : Program) : PResult Ctx := do
  let ctx1 := { ctx with unique_crate_identifier := p.unique_crate_identifier }
  let ctx2 ← foldPR Ctx.localModule ctx1 p.local_modules
  let ctx3 :=
    match p.package_json with
    | some s => { ctx2 with package_jsons := hsInsert ctx2.package_jsons s }
    | none => ctx2
  let ctx4 ← foldPR Ctx.export_ ctx3 p.exports
  let ctx5 := { ctx4 with
    vendor_prefixes := collectVendorPrefixes ctx4.vendor_prefixes p.imports }
  let ctx6 ← foldPR Ctx.importHandler ctx5 p.imports
  let ctx7 ← foldPR Ctx.enum_ ctx6 p.enums
  let ctx8 ← foldPR Ctx.struct_ ctx7 p.structs
  let ctx9 := { ctx8 with
    extra_typescript :=
      appendTypescript ctx8.extra_typescript p.typescript_custom_sections }
  .ok { ctx9 with
    snippets := maddExtend ctx9.snippets p.unique_crate_identifier p.inline_js }

/-- The program loop of `process` (`for program in programs`). -/
def processPrograms : Ctx → List Program → PResult Ctx :=
  foldPR Ctx.program

/-- The import loop of `Context::verify`, threading the counter of
placeholder-module imports seen. -/
def verifyImports (ctx : Ctx) : List ModImport → Nat → PResult Nat
  | [], n => .ok n
  | imp :: rest, n =>
    if imp.module ≠ PLACEHOLDER_MODULE then verifyImports ctx rest n
    else if !imp.is_function then
      .err "import from placeholder module was not a function"
    else if !(mcontains ctx.import_map imp.id) then
      .err "import does not have an import map item listed"
    else if !(mcontains ctx.bindings_imports imp.id) then
      .err "import does not have a binding listed"
    else verifyImports ctx rest (n + 1)

/-- `Context::verify`: the closing consistency check over the populated
records.  It only reads the context. -/
def Ctx.verify (ctx : Ctx) : PResult Unit := do
  let imports_counted ← verifyImports ctx ctx.mod_imports 0
  if ctx.import_map.length ≠ imports_counted then
    .err "import map is larger than the number of imports"
  else if ctx.bindings_imports.length ≠ imports_counted then
    .err "import binding map is larger than the number of imports"
  else if !(ctx.bindings_exports.all fun kv => mcontains ctx.export_map kv.1) then
    .err "bindings map has an entry that the export map does not"
  else if ctx.bindings_exports.length ≠ ctx.export_map.length then
    .err "export map and export bindings map have different sizes"
  else .ok ()

lemma presult_bind_err {α β : Type} (m : String) (f : α → PResult β) :
    ((PResult.err m : PResult α) >>= f) = .err m := rfl

lemma presult_bind_crash {α β : Type} (m : String) (f : α → PResult β) :
    ((PResult.crash m : PResult α) >>= f) = .crash m := rfl

lemma mfind_minsert_self {κ α : Type} [DecidableEq κ]
    (m : List (κ × α)) (k : κ) (v : α) : mfind (minsert m k v) k = some v := by
  induction m with
  | nil => simp [minsert, mfind]
  | cons kv rest ih =>
    obtain ⟨k', v'⟩ := kv
    by_cases h : k' = k <;> simp [minsert, mfind, h, ih]

/-! ## C8: module start-function registration -/

/-- C8: the first start-marked export is installed directly when the
module has no start yet; when a start already exists a fresh function is
synthesized whose body calls the previous start first and the new function
second; and once a start export has been processed (the `start_found`
flag is set) any further start export is a fatal error, whether in the
same or a later unit. -/
theorem c8_start_function :
    ∀ (ctx : Ctx) (id : Nat),
      (ctx.start_found = true →
        Ctx.add_start_function ctx id = .err "cannot specify two `start` functions") ∧
      (ctx.start_found = false → ctx.mod_start = none →
        Ctx.add_start_function ctx id =
          .ok { ctx with start_found := true, mod_start := some id }) ∧
      (∀ prev, ctx.start_found = false → ctx.mod_start = some prev →
        Ctx.add_start_function ctx id =
          .ok { ctx with
            start_found := true
            mod_funcs := ctx.mod_funcs ++ [(ctx.next_fid, [prev, id])]
            mod_start := some ctx.next_fid
            next_fid := ctx.next_fid + 1 }) ∧
      (∀ (r : Ctx) (id2 : Nat), Ctx.add_start_function ctx id = .ok r →
        Ctx.add_start_function r id2 = .err "cannot specify two `start` functions") := by
  intro ctx id
  refine ⟨fun h => ?_, fun h1 h2 => ?_, fun prev h1 h2 => ?_, fun r id2 h => ?_⟩
  · simp [Ctx.add_start_function, h]
  · simp [Ctx.add_start_function, h1, h2]
  · simp [Ctx.add_start_function, h1, h2]
  · have hr : r.start_found = true := by
      unfold Ctx.add_start_function at h
      by_cases hb : ctx.start_found
      · simp [hb] at h
      · simp only [hb, if_false, Bool.false_eq_true] at h
        cases hm : ctx.mod_start with
        | none =>
          rw [hm] at h
          simp only [PResult.ok.injEq] at h
          rw [← h]
        | some prev =>
          rw [hm] at h
          simp only [PResult.ok.injEq] at h
          rw [← h]
    simp [Ctx.add_start_function, hr]

/-- A context with every field empty, used as the base of concrete
witnesses. -/
def emptyCtx : Ctx where
  start_found := false
  mod_start := none
  mod_funcs := []
  next_fid := 0
  mod_imports := []
  bindings_exports := []
  bindings_imports := []
  extra_typescript := ""
  local_modules := []
  snippets := []
  package_jsons := []
  export_map := []
  import_map := []
  imports_with_catch := []
  imports_with_variadic := []
  aux_enums := []
  aux_structs := []
  function_exports := []
  function_imports := []
  vendor_prefixes := []
  unique_crate_identifier := ""
  descriptors := []

/-- Witness for C8: a context with no start installs directly; a context
with an existing start synthesizes the two-call wrapper; the flagged
context rejects a second start. -/
theorem c8_witness :
    (Ctx.add_start_function { emptyCtx with next_fid := 5 } 7 =
      .ok { emptyCtx with next_fid := 5, start_found := true, mod_start := some 7 }) ∧
    (Ctx.add_start_function { emptyCtx with next_fid := 5, mod_start := some 3 } 7 =
      .ok { emptyCtx with start_found := true, mod_start := some 5,
                          mod_funcs := [(5, [3, 7])], next_fid := 6 }) ∧
    (Ctx.add_start_function { emptyCtx with start_found := true, mod_start := some 7 } 9 =
      .err "cannot specify two `start` functions") := by
  refine ⟨?_, ?_, ?_⟩
  · exact (c8_start_function _ 7).2.1 rfl rfl
  · have h := (c8_start_function { emptyCtx with next_fid := 5, mod_start := some 3 } 7).2.2.1 3 rfl rfl
    exact h
  · exact (c8_start_function _ 9).1 rfl

/-! ## C9: missing descriptors / boundary imports are silent skips -/

/-- C9: an export whose boundary name has no descriptor-table entry, and a
function import whose shim name is unknown to the boundary-import index or
whose descriptor is absent, are handled by returning success with the
context (including the signature and metadata records) completely
unchanged. -/
theorem c9_missing_is_skip :
    ∀ (ctx : Ctx) (e : Export) (imp : Import) (f : ImportFunction),
      (mfind ctx.descriptors (wasmNameOf e) = none → Ctx.export_ ctx e = .ok ctx) ∧
      (mfind ctx.function_imports f.shim = none →
        Ctx.import_function ctx imp f = .ok ctx) ∧
      (∀ pr : Nat × Nat, mfind ctx.function_imports f.shim = some pr →
        mfind ctx.descriptors f.shim = none →
        Ctx.import_function ctx imp f = .ok ctx) := by
  intro ctx e imp f
  refine ⟨fun h => ?_, fun h => ?_, fun pr h1 h2 => ?_⟩
  · simp only [Ctx.export_]
    rw [h]
  · simp only [Ctx.import_function]
    rw [h]
  · obtain ⟨iid, fid⟩ := pr
    simp only [Ctx.import_function]
    rw [h1, h2]

/-- Witness for C9: a context whose descriptor table and boundary-import
index are empty skips a free-function export and a function import
without touching the context. -/
theorem c9_witness :
    (Ctx.export_ { emptyCtx with next_fid := 2 }
      { cls := none, comments := [], consumed := false
        function := { name := "foo", arg_names := [] }
        method_kind := .operation { is_static := false, kind := .regular }
        start := false } =
      .ok { emptyCtx with next_fid := 2 }) ∧
    (Ctx.import_function { emptyCtx with next_fid := 2 }
      { module := .noModule, js_namespace := none
        kind := .function { shim := "s", catch_ := false, variadic := false
                            method := none, structural := false
                            function := { name := "g", arg_names := [] } } }
      { shim := "s", catch_ := false, variadic := false, method := none
        structural := false, function := { name := "g", arg_names := [] } } =
      .ok { emptyCtx with next_fid := 2 }) := by
  refine ⟨?_, ?_⟩
  · exact (c9_missing_is_skip { emptyCtx with next_fid := 2 }
      { cls := none, comments := [], consumed := false
        function := { name := "foo", arg_names := [] }
        method_kind := .operation { is_static := false, kind := .regular }
        start := false }
      { module := .noModule, js_namespace := none, kind := .enum }
      { shim := "s", catch_ := false, variadic := false, method := none
        structural := false, function := { name := "g", arg_names := [] } }).1 rfl
  · exact (c9_missing_is_skip { emptyCtx with next_fid := 2 }
      { cls := none, comments := [], consumed := false
        function := { name := "foo", arg_names := [] }
        method_kind := .operation { is_static := false, kind := .regular }
        start := false }
      { module := .noModule, js_namespace := none
        kind := .function { shim := "s", catch_ := false, variadic := false
                            method := none, structural := false
                            function := { name := "g", arg_names := [] } } }
      { shim := "s", catch_ := false, variadic := false, method := none
        structural := false, function := { name := "g", arg_names := [] } }).2.1 rfl

/-! ## C10: unguarded function-export index panics -/

/-- C10: when a descriptor **is** present for an export's boundary name
(or a struct field's getter shim name, or its setter shim name for a
writable field) but the module's function-export index has no entry of
that name, the handler panics on the unguarded map index — it neither
returns an error value nor skips the item. -/
theorem c10_unguarded_index_panics :
    ∀ (ctx : Ctx) (e : Export) (fn : Func) (s : DecStruct) (fld : StructField)
      (rest : List StructField) (d : Descriptor) (gid : Nat × Nat),
      (mfind ctx.descriptors (wasmNameOf e) = some (.function fn) →
        mfind ctx.function_exports (wasmNameOf e) = none →
        Ctx.export_ ctx e = .crash "key not found in function_exports") ∧
      (s.fields = fld :: rest →
        mfind ctx.descriptors (struct_field_get s.name fld.name) = some d →
        mfind ctx.function_exports (struct_field_get s.name fld.name) = none →
        Ctx.struct_ ctx s = .crash "key not found in function_exports") ∧
      (s.fields = fld :: rest → fld.readonly = false →
        mfind ctx.descriptors (struct_field_get s.name fld.name) = some d →
        mfind ctx.function_exports (struct_field_get s.name fld.name) = some gid →
        mfind ctx.function_exports (struct_field_set s.name fld.name) = none →
        Ctx.struct_ ctx s = .crash "key not found in function_exports") := by
  intro ctx e fn s fld rest d gid
  refine ⟨fun h1 h2 => ?_, fun hf h1 h2 => ?_, fun hf hro h1 h2 h3 => ?_⟩
  · simp only [Ctx.export_, h1, Descriptor.unwrap_function, h2]
  · have hsf : Ctx.structField ctx s.name fld = .crash "key not found in function_exports" := by
      simp only [Ctx.structField, h1, h2]
    simp only [Ctx.struct_, hf, foldPR, hsf, presult_bind_crash]
  · obtain ⟨g1, g2⟩ := gid
    have hsf : Ctx.structField ctx s.name fld = .crash "key not found in function_exports" := by
      simp only [Ctx.structField, h1, h2, hro, Bool.false_eq_true, if_false, h3]
    simp only [Ctx.struct_, hf, foldPR, hsf, presult_bind_crash]

/-- Witness for C10: a descriptor table containing `"foo"` with no
matching function export panics the export handler; a struct whose field
getter descriptor is present but whose getter export is missing panics
the struct handler. -/
theorem c10_witness :
    (Ctx.export_
      { emptyCtx with descriptors := [("foo", .function (Func.mk [] 0 .unit))] }
      { cls := none, comments := [], consumed := false
        function := { name := "foo", arg_names := [] }
        method_kind := .operation { is_static := false, kind := .regular }
        start := false } =
      .crash "key not found in function_exports") ∧
    (Ctx.struct_
      { emptyCtx with descriptors := [("__wbg_get_Point_x", .f64)] }
      { name := "Point", fields := [{ name := "x", readonly := false, comments := [] }]
        comments := [] } =
      .crash "key not found in function_exports") := by
  constructor
  · exact (c10_unguarded_index_panics
      { emptyCtx with descriptors := [("foo", .function (Func.mk [] 0 .unit))] }
      { cls := none, comments := [], consumed := false
        function := { name := "foo", arg_names := [] }
        method_kind := .operation { is_static := false, kind := .regular }
        start := false }
      (Func.mk [] 0 .unit)
      { name := "Point", fields := [], comments := [] }
      { name := "x", readonly := false, comments := [] } [] .f64 (0, 0)).1 rfl rfl
  · exact (c10_unguarded_index_panics
      { emptyCtx with descriptors := [("__wbg_get_Point_x", .f64)] }
      { cls := none, comments := [], consumed := false
        function := { name := "foo", arg_names := [] }
        method_kind := .operation { is_static := false, kind := .regular }
        start := false }
      (Func.mk [] 0 .unit)
      { name := "Point", fields := [{ name := "x", readonly := false, comments := [] }]
        comments := [] }
      { name := "x", readonly := false, comments := [] } [] .f64 (0, 0)).2.1 rfl rfl rfl

/-! ## C7: export method-kind dispatch -/

/-- Claim side of C7 (spec wording): the argument list recorded for an
export — an implicit pointer-typed (`I32`) first argument is prepended for
getter, setter, and non-static instance-method kinds; constructors,
static functions and free functions leave the arguments unchanged. -/
def c7_claimed_arguments (descriptor : Func) (e : Export) : List Descriptor :=
  match e.cls with
  | some _ =>
    match e.method_kind with
    | .constructor => descriptor.arguments
    | .operation op =>
      match op.kind with
      | .getter _ => .i32 :: descriptor.arguments
      | .setter _ => .i32 :: descriptor.arguments
      | _ =>
        if op.is_static then descriptor.arguments
        else .i32 :: descriptor.arguments
  | none => descriptor.arguments

/-- Claim side of C7 (spec wording): the metadata placement recorded for
an export — `Getter`/`Setter` with class and field, `Method` with class,
name and consumed flag, `Constructor`, `StaticFunction`, and the
free-function placement when the export has no class. -/
def c7_claimed_kind (e : Export) : AuxExportKind :=
  match e.cls with
  | some cls =>
    match e.method_kind with
    | .constructor => .constructor cls
    | .operation op =>
      match op.kind with
      | .getter f => .getter cls f
      | .setter f => .setter cls f
      | _ =>
        if op.is_static then .staticFunction cls e.function.name
        else .method cls e.function.name e.consumed
  | none => .function e.function.name

lemma exportKindOf_eq (descriptor : Func) (e : Export) :
    exportKindOf descriptor e =
      (Func.mk (c7_claimed_arguments descriptor e) descriptor.shim_idx descriptor.ret,
       c7_claimed_kind e) := by
  obtain ⟨args, shim, ret⟩ := descriptor
  obtain ⟨cls, comments, consumed, function, method_kind, start⟩ := e
  cases cls with
  | none => rfl
  | some c =>
    cases method_kind with
    | constructor => rfl
    | operation op =>
      obtain ⟨is_static, kind⟩ := op
      cases kind <;> first | rfl | (cases is_static <;> rfl)

lemma exportTail_ok (ctx1 : Ctx) (e : Export) (descriptor : Func)
    (export_id id : Nat) (wasm_name : String) (r : Ctx)
    (h : Ctx.exportTail ctx1 e descriptor export_id id wasm_name = .ok r) :
    mfind r.bindings_exports export_id =
      some (Func.mk (c7_claimed_arguments descriptor e) descriptor.shim_idx
        descriptor.ret) ∧
    (mfind r.export_map export_id).map AuxExport.kind =
      some (c7_claimed_kind e) := by
  unfold Ctx.exportTail at h
  cases hst : e.start with
  | false =>
    simp only [hst, Bool.false_eq_true, if_false, presult_bind_ok,
      exportKindOf_eq, PResult.ok.injEq] at h
    rw [← h]
    constructor
    · simp [mfind_minsert_self]
    · simp [mfind_minsert_self]
  | true =>
    simp only [hst, if_true] at h
    cases ha : ctx1.add_start_function id with
    | err m => rw [ha] at h; simp [presult_bind_err] at h
    | crash m => rw [ha] at h; simp [presult_bind_crash] at h
    | ok ctx2 =>
      rw [ha] at h
      simp only [presult_bind_ok, exportKindOf_eq, PResult.ok.injEq] at h
      rw [← h]
      constructor
      · simp [mfind_minsert_self]
      · simp [mfind_minsert_self]

/-- C7: for every export with a claimed `Function` descriptor and a
matching function export, successful processing records a signature whose
argument list prepends exactly one `I32` pointer argument for
getter/setter/instance-method kinds (and leaves constructors, static
functions and free functions unchanged), and records the placement tag
dictated by the method kind. -/
theorem c7_export_method_dispatch :
    ∀ (ctx : Ctx) (e : Export) (fn : Func) (eid fid : Nat) (r : Ctx),
      mfind ctx.descriptors (wasmNameOf e) = some (.function fn) →
      mfind ctx.function_exports (wasmNameOf e) = some (eid, fid) →
      Ctx.export_ ctx e = .ok r →
      mfind r.bindings_exports eid =
        some (Func.mk (c7_claimed_arguments fn e) fn.shim_idx fn.ret) ∧
      (mfind r.export_map eid).map AuxExport.kind = some (c7_claimed_kind e) := by
  intro ctx e fn eid fid r h1 h2 h3
  simp only [Ctx.export_, h1, Descriptor.unwrap_function, h2] at h3
  exact exportTail_ok _ _ _ _ _ _ _ h3

/-- The context of the C7 witness: a claimed getter descriptor for
`Point::x` and a matching function export. -/
def c7w_ctx : Ctx :=
  { emptyCtx with
    descriptors := [("Point_x", .function (Func.mk [] 3 .f64))]
    function_exports := [("Point_x", (0, 1))] }

/-- The export of the C7 witness: the spec's getter-method example
(`class="Point"`, method kind Getter, field `"x"`). -/
def c7w_export : Export :=
  { cls := some "Point", comments := [], consumed := false
    function := { name := "x", arg_names := [] }
    method_kind := .operation { is_static := false, kind := .getter "x" }
    start := false }

/-- The context produced by processing the C7 witness export. -/
def c7w_result : Ctx :=
  { emptyCtx with
    function_exports := [("Point_x", (0, 1))]
    export_map := [(0, { debug_name := "Point_x", comments := ""
                         arg_names := some [], kind := .getter "Point" "x" })]
    bindings_exports := [(0, Func.mk [.i32] 3 .f64)] }

/-- Witness for C7: the getter-method export prepends exactly one pointer
argument and tags the metadata as `Getter{class := "Point", field := "x"}`. -/
theorem c7_witness :
    mfind c7w_result.bindings_exports 0 = some (Func.mk [.i32] 3 .f64) ∧
    (mfind c7w_result.export_map 0).map AuxExport.kind =
      some (.getter "Point" "x") :=
  c7_export_method_dispatch c7w_ctx c7w_export (Func.mk [] 3 .f64) 0 1 c7w_result
    rfl rfl rfl

/-! ## C2: vendor-prefix collection order -/

/-- Project the import-map entry of an id out of a pass result. -/
def importMapAt (r : PResult Ctx) (k : Nat) : Option AuxImport :=
  match r with
  | .ok c => mfind c.import_map k
  | _ => none

/-- The vendor-prefix list a bound import was resolved with, when its
target is a vendor-prefixed name. -/
def prefixesConsulted : AuxImport → Option (List String)
  | .value (.bare j) =>
    match j.name with
    | .vendorPrefixed _ ps => some ps
    | _ => none
  | _ => none

/-- Initial context of the C2 counterexample: one boundary function import
(shim `"shim1"`) with its descriptor. -/
def c2_ctx0 : Ctx :=
  { emptyCtx with
    function_imports := [("shim1", (0, 0))]
    descriptors := [("shim1", .function (Func.mk [] 0 .unit))] }

/-- First unit of the C2 counterexample: a plain function import of global
`"foo"` through shim `"shim1"`. -/
def c2_unit1 : Program :=
  { exports := [], enums := []
    imports := [{ module := .noModule, js_namespace := none
                  kind := .function { shim := "shim1", catch_ := false
                                      variadic := false, method := none
                                      structural := false
                                      function := { name := "foo", arg_names := [] } } }]
    structs := [], typescript_custom_sections := [], local_modules := []
    inline_js := [], unique_crate_identifier := "a", package_json := none }

/-- Second unit of the C2 counterexample: a type import declaring vendor
prefix `"webkit"` for the name `"foo"` (its instanceof shim is unknown,
so the import itself is skipped, but its prefixes are still collected). -/
def c2_unit2 : Program :=
  { exports := [], enums := []
    imports := [{ module := .noModule, js_namespace := none
                  kind := .type { name := "foo", instanceof_shim := "shimT"
                                  vendor_prefixes := ["webkit"] } }]
    structs := [], typescript_custom_sections := [], local_modules := []
    inline_js := [], unique_crate_identifier := "b", package_json := none }

/-- C2 counterexample: unit 2 declares the vendor prefix `"webkit"` for
`"foo"`, but the import of `"foo"` in the *earlier* unit 1 is bound to a
bare global with no prefix list at all — prefixes declared in a later
unit are not visible when an earlier unit's imports are bound, refuting
the claim that collection happens across all units before any import is
bound. -/
theorem c2_counterexample :
    importMapAt (processPrograms c2_ctx0 [c2_unit1, c2_unit2]) 0 =
      some (AuxImport.value (.bare { name := .global "foo", fields := [] })) ∧
    prefixesConsulted
      (AuxImport.value (.bare { name := .global "foo", fields := [] })) = none :=
  ⟨rfl, rfl⟩

lemma presult_bind_ok_inv {α β : Type} {x : PResult α} {f : α → PResult β} {b : β}
    (h : (x >>= f) = .ok b) : ∃ a, x = .ok a ∧ f a = .ok b := by
  cases x with
  | ok a => exact ⟨a, rfl, h⟩
  | err m => rw [presult_bind_err] at h; exact PResult.noConfusion h
  | crash m => rw [presult_bind_crash] at h; exact PResult.noConfusion h

lemma add_start_preserves_prefixes (ctx : Ctx) (id : Nat) (r : Ctx)
    (h : Ctx.add_start_function ctx id = .ok r) :
    r.vendor_prefixes = ctx.vendor_prefixes := by
  unfold Ctx.add_start_function at h
  split at h
  · exact PResult.noConfusion h
  · dsimp only [] at h
    split at h <;>
      (simp only [PResult.ok.injEq] at h; subst h; rfl)

lemma exportTail_preserves_prefixes (ctx1 : Ctx) (e : Export) (descriptor : Func)
    (export_id id : Nat) (wasm_name : String) (r : Ctx)
    (h : Ctx.exportTail ctx1 e descriptor export_id id wasm_name = .ok r) :
    r.vendor_prefixes = ctx1.vendor_prefixes := by
  unfold Ctx.exportTail at h
  dsimp only [] at h
  split at h
  · obtain ⟨ctx2, h1, h2⟩ := presult_bind_ok_inv h
    have hp := add_start_preserves_prefixes _ _ _ h1
    simp only [exportKindOf_eq, PResult.ok.injEq] at h2
    subst h2
    exact hp
  · simp only [presult_bind_ok, exportKindOf_eq, PResult.ok.injEq] at h
    subst h
    rfl

lemma export_preserves_prefixes (ctx : Ctx) (e : Export) (r : Ctx)
    (h : Ctx.export_ ctx e = .ok r) : r.vendor_prefixes = ctx.vendor_prefixes := by
  unfold Ctx.export_ at h
  dsimp only [] at h
  split at h
  · simp only [PResult.ok.injEq] at h; subst h; rfl
  · split at h
    · exact PResult.noConfusion h
    · split at h
      · exact PResult.noConfusion h
      · have hp := exportTail_preserves_prefixes _ _ _ _ _ _ _ h
        exact hp

lemma import_function_preserves_prefixes (ctx : Ctx) (imp : Import)
    (f : ImportFunction) (r : Ctx) (h : Ctx.import_function ctx imp f = .ok r) :
    r.vendor_prefixes = ctx.vendor_prefixes := by
  unfold Ctx.import_function at h
  split at h
  · simp only [PResult.ok.injEq] at h; subst h; rfl
  · split at h
    · simp only [PResult.ok.injEq] at h; subst h; rfl
    · split at h
      · exact PResult.noConfusion h
      · dsimp only [] at h
        split at h
        · obtain ⟨cls, h1, h2⟩ := presult_bind_ok_inv h
          split at h2
          · simp only [PResult.ok.injEq] at h2
            subst h2
            simp [apply_ite Ctx.vendor_prefixes]
          · obtain ⟨pair, h3, h4⟩ := presult_bind_ok_inv h2
            obtain ⟨imp2, isMethod⟩ := pair
            dsimp only [] at h4
            simp only [PResult.ok.injEq] at h4
            subst h4
            simp [apply_ite Ctx.vendor_prefixes]
        · obtain ⟨name, h1, h2⟩ := presult_bind_ok_inv h
          simp only [PResult.ok.injEq] at h2
          subst h2
          simp [apply_ite Ctx.vendor_prefixes]

lemma import_static_preserves_prefixes (ctx : Ctx) (imp : Import)
    (st : ImportStatic) (r : Ctx) (h : Ctx.import_static ctx imp st = .ok r) :
    r.vendor_prefixes = ctx.vendor_prefixes := by
  unfold Ctx.import_static at h
  split at h
  · simp only [PResult.ok.injEq] at h; subst h; rfl
  · dsimp only [] at h
    obtain ⟨j, h1, h2⟩ := presult_bind_ok_inv h
    simp only [PResult.ok.injEq] at h2
    subst h2
    rfl

lemma import_type_preserves_prefixes (ctx : Ctx) (imp : Import)
    (t : ImportTypeDecl) (r : Ctx) (h : Ctx.import_type ctx imp t = .ok r) :
    r.vendor_prefixes = ctx.vendor_prefixes := by
  unfold Ctx.import_type at h
  split at h
  · simp only [PResult.ok.injEq] at h; subst h; rfl
  · dsimp only [] at h
    obtain ⟨j, h1, h2⟩ := presult_bind_ok_inv h
    simp only [PResult.ok.injEq] at h2
    subst h2
    rfl

lemma importHandler_preserves_prefixes (ctx : Ctx) (imp : Import) (r : Ctx)
    (h : Ctx.importHandler ctx imp = .ok r) :
    r.vendor_prefixes = ctx.vendor_prefixes := by
  unfold Ctx.importHandler at h
  split at h
  · exact import_function_preserves_prefixes _ _ _ _ h
  · exact import_static_preserves_prefixes _ _ _ _ h
  · exact import_type_preserves_prefixes _ _ _ _ h
  · simp only [PResult.ok.injEq] at h; subst h; rfl

lemma localModule_preserves_prefixes (ctx : Ctx) (m : LocalModule) (r : Ctx)
    (h : Ctx.localModule ctx m = .ok r) :
    r.vendor_prefixes = ctx.vendor_prefixes := by
  unfold Ctx.localModule at h
  dsimp only [] at h
  split at h
  · split at h
    · simp only [PResult.ok.injEq] at h; subst h; rfl
    · exact PResult.noConfusion h
  · simp only [PResult.ok.injEq] at h; subst h; rfl

lemma enum_preserves_prefixes (ctx : Ctx) (e : DecEnum) (r : Ctx)
    (h : Ctx.enum_ ctx e = .ok r) : r.vendor_prefixes = ctx.vendor_prefixes := by
  unfold Ctx.enum_ at h
  simp only [PResult.ok.injEq] at h
  subst h
  rfl

lemma structField_preserves_prefixes (ctx : Ctx) (sn : String)
    (fld : StructField) (r : Ctx) (h : Ctx.structField ctx sn fld = .ok r) :
    r.vendor_prefixes = ctx.vendor_prefixes := by
  unfold Ctx.structField at h
  dsimp only [] at h
  split at h
  · simp only [PResult.ok.injEq] at h; subst h; rfl
  · split at h
    · exact PResult.noConfusion h
    · split at h
      · simp only [PResult.ok.injEq] at h; subst h; rfl
      · split at h
        · exact PResult.noConfusion h
        · simp only [PResult.ok.injEq] at h; subst h; rfl

lemma foldPR_preserves_prefixes {α : Type} (f : Ctx → α → PResult Ctx)
    (hf : ∀ ctx x r, f ctx x = .ok r → r.vendor_prefixes = ctx.vendor_prefixes) :
    ∀ (l : List α) (ctx : Ctx) (r : Ctx), foldPR f ctx l = .ok r →
      r.vendor_prefixes = ctx.vendor_prefixes := by
  intro l
  induction l with
  | nil => intro ctx r h; simp only [foldPR, PResult.ok.injEq] at h; subst h; rfl
  | cons x xs ih =>
    intro ctx r h
    simp only [foldPR] at h
    obtain ⟨ctx', h1, h2⟩ := presult_bind_ok_inv h
    rw [ih ctx' r h2, hf ctx x ctx' h1]

lemma struct_preserves_prefixes (ctx : Ctx) (s : DecStruct) (r : Ctx)
    (h : Ctx.struct_ ctx s = .ok r) : r.vendor_prefixes = ctx.vendor_prefixes := by
  unfold Ctx.struct_ at h
  obtain ⟨ctx1, h1, h2⟩ := presult_bind_ok_inv h
  have hp := foldPR_preserves_prefixes _
    (fun c fld rr hh => structField_preserves_prefixes c s.name fld rr hh)
    s.fields ctx ctx1 h1
  dsimp only [] at h2
  split at h2 <;>
    (simp only [PResult.ok.injEq] at h2; subst h2; exact hp)

lemma program_prefixes (ctx : Ctx) (p : Program) (r : Ctx)
    (h : Ctx.program ctx p = .ok r) :
    r.vendor_prefixes = collectVendorPrefixes ctx.vendor_prefixes p.imports := by
  unfold Ctx.program at h
  dsimp only [] at h
  obtain ⟨ctx2, h1, h2⟩ := presult_bind_ok_inv h
  obtain ⟨ctx4, h3, h4⟩ := presult_bind_ok_inv h2
  obtain ⟨ctx6, h5, h6⟩ := presult_bind_ok_inv h4
  obtain ⟨ctx7, h7, h8⟩ := presult_bind_ok_inv h6
  obtain ⟨ctx8, h9, h10⟩ := presult_bind_ok_inv h8
  have e1 := foldPR_preserves_prefixes _
    (fun c x rr hh => localModule_preserves_prefixes c x rr hh) _ _ _ h1
  have e2 := foldPR_preserves_prefixes _
    (fun c x rr hh => export_preserves_prefixes c x rr hh) _ _ _ h3
  have e3 := foldPR_preserves_prefixes _
    (fun c x rr hh => importHandler_preserves_prefixes c x rr hh) _ _ _ h5
  have e4 := foldPR_preserves_prefixes _
    (fun c x rr hh => enum_preserves_prefixes c x rr hh) _ _ _ h7
  have e5 := foldPR_preserves_prefixes _
    (fun c x rr hh => struct_preserves_prefixes c x rr hh) _ _ _ h9
  simp only [PResult.ok.injEq] at h10
  subst h10
  dsimp only [] at e1 e2 e3 e4 e5 ⊢
  rw [e5, e4, e3]
  cases hpj : p.package_json with
  | none =>
    rw [hpj] at e2
    dsimp only [] at e2
    rw [e2, e1]
  | some s =>
    rw [hpj] at e2
    dsimp only [] at e2
    rw [e2, e1]

/-- C2 (amended): vendor-prefix collection is per-unit, not global.
Within one unit, the prefixes of *all* its type imports (wherever they
appear in the unit's import list) are merged into the map before any of
the unit's imports is bound, and the map is never modified while binding
exports or imports — so the prefix list consulted for an entry of unit k
consists exactly of the prefixes declared in units 1..k (the
counterexample shows prefixes of later units are not seen). -/
theorem c2_prefix_collection_amended :
    (∀ (ctx : Ctx) (e : Export) (r : Ctx), Ctx.export_ ctx e = .ok r →
      r.vendor_prefixes = ctx.vendor_prefixes) ∧
    (∀ (ctx : Ctx) (imp : Import) (r : Ctx), Ctx.importHandler ctx imp = .ok r →
      r.vendor_prefixes = ctx.vendor_prefixes) ∧
    (∀ (ctx : Ctx) (p : Program) (r : Ctx), Ctx.program ctx p = .ok r →
      r.vendor_prefixes = collectVendorPrefixes ctx.vendor_prefixes p.imports) ∧
    (∀ (ctx : Ctx) (ps : List Program) (r : Ctx), processPrograms ctx ps = .ok r →
      r.vendor_prefixes =
        ps.foldl (fun m p => collectVendorPrefixes m p.imports)
          ctx.vendor_prefixes) := by
  refine ⟨export_preserves_prefixes, importHandler_preserves_prefixes,
    program_prefixes, ?_⟩
  intro ctx ps
  induction ps generalizing ctx with
  | nil =>
    intro r h
    simp only [processPrograms, foldPR, PResult.ok.injEq] at h
    subst h
    rfl
  | cons p ps ih =>
    intro r h
    simp only [processPrograms, foldPR] at h
    obtain ⟨c', h1, h2⟩ := presult_bind_ok_inv h
    have hp := program_prefixes ctx p c' h1
    have hr := ih c' r h2
    rw [hr, hp, List.foldl_cons]

/-- Witness for C2 (amended): processing the prefix-declaring unit from
an empty context yields exactly the one-step collection of that unit's
type-import prefixes. -/
theorem c2_witness :
    ({ emptyCtx with unique_crate_identifier := "b",
                     vendor_prefixes := [("foo", ["webkit"])],
                     snippets := [("b", [])] } : Ctx).vendor_prefixes =
      collectVendorPrefixes emptyCtx.vendor_prefixes c2_unit2.imports :=
  c2_prefix_collection_amended.2.2.1 emptyCtx c2_unit2 _ rfl

/-! ## C1: the closing verification pass -/

/-- The number of function imports from the placeholder boundary module. -/
def countPlaceholderFuncs : List ModImport → Nat
  | [] => 0
  | mi :: rest =>
    (if mi.module = PLACEHOLDER_MODULE ∧ mi.is_function = true then 1 else 0) +
      countPlaceholderFuncs rest

/-- Claim side of C1 (spec wording): every function import from the
placeholder module has entries in both the import metadata map and in
the import binding map; neither map has more entries than the number of
such placeholder imports; every export-binding key is an export-metadata
key; and the two export maps have equal size. -/
def c1_claimed_conditions (ctx : Ctx) : Prop :=
  (∀ mi ∈ ctx.mod_imports,
    mi.module = PLACEHOLDER_MODULE → mi.is_function = true →
      mcontains ctx.import_map mi.id = true ∧
      mcontains ctx.bindings_imports mi.id = true) ∧
  ctx.import_map.length ≤ countPlaceholderFuncs ctx.mod_imports ∧
  ctx.bindings_imports.length ≤ countPlaceholderFuncs ctx.mod_imports ∧
  (∀ kv ∈ ctx.bindings_exports, mcontains ctx.export_map kv.1 = true) ∧
  ctx.bindings_exports.length = ctx.export_map.length

instance (ctx : Ctx) : Decidable (c1_claimed_conditions ctx) := by
  unfold c1_claimed_conditions
  infer_instance

lemma mfind_isSome_iff_mem {κ α : Type} [DecidableEq κ] (m : List (κ × α)) (k : κ) :
    (mfind m k).isSome = true ↔ k ∈ m.map Prod.fst := by
  induction m with
  | nil => simp [mfind]
  | cons kv rest ih =>
    obtain ⟨k', v⟩ := kv
    by_cases h : k' = k
    · subst h
      simp [mfind]
    · simp only [mfind, if_neg h, ih, List.map_cons, List.mem_cons]
      constructor
      · exact Or.inr
      · rintro (h' | hmem)
        · exact absurd h'.symm h
        · exact hmem

lemma mcontains_iff {κ α : Type} [DecidableEq κ] (m : List (κ × α)) (k : κ) :
    mcontains m k = true ↔ k ∈ m.map Prod.fst := by
  simp [mcontains, mfind_isSome_iff_mem]

lemma countPlaceholderFuncs_eq_filter (l : List ModImport) :
    countPlaceholderFuncs l =
      (l.filter fun mi =>
        decide (mi.module = PLACEHOLDER_MODULE ∧ mi.is_function = true)).length := by
  induction l with
  | nil => rfl
  | cons mi rest ih =>
    by_cases h : mi.module = PLACEHOLDER_MODULE ∧ mi.is_function = true <;>
      simp [countPlaceholderFuncs, List.filter, h, ih, Nat.add_comm]

lemma verifyImports_ok_iff (ctx : Ctx) :
    ∀ (l : List ModImport) (n m : Nat),
      verifyImports ctx l n = .ok m ↔
      ((∀ mi ∈ l, mi.module = PLACEHOLDER_MODULE →
          mi.is_function = true ∧ mcontains ctx.import_map mi.id = true ∧
          mcontains ctx.bindings_imports mi.id = true) ∧
       m = n + countPlaceholderFuncs l) := by
  intro l
  induction l with
  | nil =>
    intro n m
    simp only [verifyImports, countPlaceholderFuncs, PResult.ok.injEq,
      List.not_mem_nil, false_implies, implies_true, true_and, Nat.add_zero]
    exact eq_comm
  | cons mi rest ih =>
    intro n m
    simp only [verifyImports]
    by_cases h1 : mi.module = PLACEHOLDER_MODULE
    · rw [if_neg (by simp [h1])]
      by_cases h2 : mi.is_function = true
      · by_cases h3 : mcontains ctx.import_map mi.id = true
        · by_cases h4 : mcontains ctx.bindings_imports mi.id = true
          · rw [if_neg (by simp [h2]), if_neg (by simp [h3]), if_neg (by simp [h4]),
              ih]
            rw [show countPlaceholderFuncs (mi :: rest) =
                1 + countPlaceholderFuncs rest by
              simp [countPlaceholderFuncs, h1, h2]]
            rw [List.forall_mem_cons]
            constructor
            · rintro ⟨ha, hb⟩
              exact ⟨⟨fun _ => ⟨h2, h3, h4⟩, ha⟩, by omega⟩
            · rintro ⟨⟨_, ha⟩, hb⟩
              exact ⟨ha, by omega⟩
          · rw [if_neg (by simp [h2]), if_neg (by simp [h3]), if_pos (by simp [h4])]
            constructor
            · intro hcontra
              exact PResult.noConfusion hcontra
            · rintro ⟨hall, _⟩
              obtain ⟨hf, hc1, hc2⟩ := hall mi (by simp) h1
              exact absurd hc2 h4
        · rw [if_neg (by simp [h2]), if_pos (by simp [h3])]
          constructor
          · intro hcontra
            exact PResult.noConfusion hcontra
          · rintro ⟨hall, _⟩
            obtain ⟨hf, hc1, hc2⟩ := hall mi (by simp) h1
            exact absurd hc1 h3
      · rw [if_pos (by simp [h2])]
        constructor
        · intro hcontra
          exact PResult.noConfusion hcontra
        · rintro ⟨hall, _⟩
          obtain ⟨hf, hc1, hc2⟩ := hall mi (by simp) h1
          exact absurd hf h2
    · rw [if_pos (by exact h1), ih]
      rw [show countPlaceholderFuncs (mi :: rest) = countPlaceholderFuncs rest by
        simp [countPlaceholderFuncs, h1]]
      rw [List.forall_mem_cons]
      constructor
      · rintro ⟨ha, hb⟩
        exact ⟨⟨fun hph => absurd hph h1, ha⟩, hb⟩
      · rintro ⟨⟨_, ha⟩, hb⟩
        exact ⟨ha, hb⟩

lemma placeholder_count_le_map_length {α : Type} (ctx : Ctx)
    (hn1 : (ctx.mod_imports.map ModImport.id).Nodup)
    (m : List (Nat × α))
    (hcont : ∀ mi ∈ ctx.mod_imports,
      mi.module = PLACEHOLDER_MODULE → mi.is_function = true →
        mcontains m mi.id = true) :
    countPlaceholderFuncs ctx.mod_imports ≤ m.length := by
  rw [countPlaceholderFuncs_eq_filter]
  have hsubl : List.Sublist
      ((ctx.mod_imports.filter fun mi =>
        decide (mi.module = PLACEHOLDER_MODULE ∧ mi.is_function = true)).map
          ModImport.id) (ctx.mod_imports.map ModImport.id) :=
    (List.filter_sublist _).map _
  have hnd := List.Nodup.sublist hsubl hn1
  have hsub :
      ((ctx.mod_imports.filter fun mi =>
        decide (mi.module = PLACEHOLDER_MODULE ∧ mi.is_function = true)).map
          ModImport.id) ⊆ m.map Prod.fst := by
    intro x hx
    simp only [List.mem_map, List.mem_filter] at hx
    obtain ⟨mi, ⟨hmem, hpred⟩, rfl⟩ := hx
    obtain ⟨hph, hfn⟩ := of_decide_eq_true hpred
    exact (mcontains_iff _ _).mp (hcont mi hmem hph hfn)
  have hle := (List.subperm_of_subset hnd hsub).length_le
  simpa using hle

/-- C1 (amended): over a context whose module-import ids and record keys
are duplicate-free (as walrus ids and `HashMap` keys are), the closing
verification pass succeeds **iff** every import from the placeholder
module is a *function* import, every such import has entries in both
the import metadata map and the import binding map, neither of those
maps has more entries than the number of placeholder function imports,
every export-binding key is an export-metadata key, and the two export
maps
have equal size.  The pass only reads the context (its type,
`Ctx → PResult Unit`, returns no state), so it never modifies the
records. -/
theorem c1_verify_characterization :
    ∀ ctx : Ctx,
      (ctx.mod_imports.map ModImport.id).Nodup →
      (ctx.import_map.map Prod.fst).Nodup →
      (ctx.bindings_imports.map Prod.fst).Nodup →
      (Ctx.verify ctx = .ok () ↔
        ((∀ mi ∈ ctx.mod_imports,
          mi.module = PLACEHOLDER_MODULE → mi.is_function = true) ∧
         c1_claimed_conditions ctx)) := by
  intro ctx hn1 hn2 hn3
  constructor
  · intro h
    unfold Ctx.verify at h
    obtain ⟨n, h1, h2⟩ := presult_bind_ok_inv h
    rw [verifyImports_ok_iff] at h1
    obtain ⟨hall, hn⟩ := h1
    split at h2
    · exact PResult.noConfusion h2
    case isFalse hlen1 =>
      split at h2
      · exact PResult.noConfusion h2
      case isFalse hlen2 =>
        split at h2
        · exact PResult.noConfusion h2
        case isFalse hexp =>
          split at h2
          · exact PResult.noConfusion h2
          case isFalse hlen3 =>
            have him : ctx.import_map.length = n := not_ne_iff.mp hlen1
            have hbi : ctx.bindings_imports.length = n := not_ne_iff.mp hlen2
            have hex : ∀ kv ∈ ctx.bindings_exports,
                mcontains ctx.export_map kv.1 = true := by
              have : ctx.bindings_exports.all
                  (fun kv => mcontains ctx.export_map kv.1) = true := by
                by_contra hb
                exact hexp (by simp [hb])
              exact fun kv hkv => List.all_eq_true.mp this kv hkv
            refine ⟨fun mi hm hph => (hall mi hm hph).1, ?_, ?_, ?_, hex,
              not_ne_iff.mp hlen3⟩
            · exact fun mi hm hph _ =>
                ⟨(hall mi hm hph).2.1, (hall mi hm hph).2.2⟩
            · omega
            · omega
  · rintro ⟨hfunc, hc1, hc2, hc3, hc4, hc5⟩
    have hall : ∀ mi ∈ ctx.mod_imports, mi.module = PLACEHOLDER_MODULE →
        mi.is_function = true ∧ mcontains ctx.import_map mi.id = true ∧
        mcontains ctx.bindings_imports mi.id = true := by
      intro mi hm hph
      have hf := hfunc mi hm hph
      exact ⟨hf, (hc1 mi hm hph hf).1, (hc1 mi hm hph hf).2⟩
    have hvi : verifyImports ctx ctx.mod_imports 0 =
        .ok (countPlaceholderFuncs ctx.mod_imports) :=
      (verifyImports_ok_iff ctx _ 0 _).mpr ⟨hall, by omega⟩
    have hgeim := placeholder_count_le_map_length ctx hn1 ctx.import_map
      (fun mi hm hph hf => (hc1 mi hm hph hf).1)
    have hgebi := placeholder_count_le_map_length ctx hn1 ctx.bindings_imports
      (fun mi hm hph hf => (hc1 mi hm hph hf).2)
    have him : ctx.import_map.length = countPlaceholderFuncs ctx.mod_imports := by
      omega
    have hbi : ctx.bindings_imports.length =
        countPlaceholderFuncs ctx.mod_imports := by
      omega
    unfold Ctx.verify
    rw [hvi, presult_bind_ok]
    rw [if_neg (by omega), if_neg (by omega),
      if_neg (by simp [List.all_eq_true.mpr hc4]), if_neg (by omega)]

/-- The C1 counterexample context: a single *non-function* import from the
placeholder module, with all records empty. -/
def c1cx : Ctx :=
  { emptyCtx with
    mod_imports := [{ module := PLACEHOLDER_MODULE, name := "x", id := 0
                      is_function := false }] }

/-- C1 counterexample: all of the claim's conditions hold on `c1cx` (the
quantification over placeholder *function* imports is vacuous and all
maps are empty with matching sizes), yet the pass fails, because it also
rejects any placeholder-module import that is not a function import —
a condition the claim's "if and only if" omits. -/
theorem c1_counterexample :
    c1_claimed_conditions c1cx ∧
    Ctx.verify c1cx = .err "import from placeholder module was not a function" :=
  ⟨by decide, rfl⟩

/-- The C1 witness context: one placeholder function import with entries
in both import records, and one export with entries in both export
records. -/
def c1w : Ctx :=
  { emptyCtx with
    mod_imports := [{ module := PLACEHOLDER_MODULE, name := "f", id := 0
                      is_function := true }]
    import_map := [(0, .value (.bare { name := .global "f", fields := [] }))]
    bindings_imports := [(0, .function (Func.mk [] 0 .unit))]
    bindings_exports := [(4, Func.mk [] 0 .unit)]
    export_map := [(4, { debug_name := "e", comments := "", arg_names := none
                         kind := .function "e" })] }

/-- Witness for C1 (amended): a record set in which the placeholder
function import and the export are present in both respective maps with
matching counts passes verification. -/
theorem c1_witness : Ctx.verify c1w = .ok () :=
  (c1_verify_characterization c1w (by decide) (by decide) (by decide)).mpr
    ⟨by decide, by decide⟩
